import Mathlib

/-!
Verification development for the Santa osquery extension
(santarulestable.cpp and santa.cpp).

The definitions below are a shallow embedding of the C++ source:
pure functions are translated directly; the stateful table plugin is
modelled by explicit state passing; interactions with the filesystem,
sqlite and the external `santactl` process are modelled by environment
records that fix the outcome of each external call.
-/

namespace Santa

/-- RuleEntry::Type from santarulestable.h / santa.h (refactored version
with five concrete rule kinds). -/
inductive RuleType
  | Binary
  | Certificate
  | SigningID
  | TeamID
  | CDHash
  | Unknown
deriving DecidableEq, Repr

/-- RuleEntry::State. -/
inductive RuleState
  | Whitelist
  | Blacklist
  | Unknown
deriving DecidableEq, Repr

/-- struct RuleEntry (identifier/type/state/custom_message). -/
structure RuleEntry where
  type : RuleType
  state : RuleState
  identifier : String
  custom_message : String
deriving DecidableEq, Repr

/-- struct LogEntry: timestamp, application (path), reason, sha256. -/
structure LogEntry where
  timestamp : String
  application : String
  reason : String
  sha256 : String
deriving DecidableEq, Repr

/-- struct ProcessOutput from utils.h. -/
structure ProcessOutput where
  std_output : String
  std_error : String
  exit_code : Int
deriving DecidableEq, Repr

/-- getRuleTypeName (santa.cpp). -/
def getRuleTypeName : RuleType → String
  | .Binary => "binary"
  | .Certificate => "certificate"
  | .TeamID => "teamid"
  | .SigningID => "signingid"
  | .CDHash => "cdhash"
  | .Unknown => "unknown"

/-- getRuleStateName (santa.cpp). -/
def getRuleStateName : RuleState → String
  | .Whitelist => "allow"
  | .Blacklist => "block"
  | .Unknown => "unknown"

/-- getTypeFromRuleName (santa.cpp). -/
def getTypeFromRuleName (name : String) : RuleType :=
  if name == "certificate" then .Certificate
  else if name == "binary" then .Binary
  else if name == "teamid" then .TeamID
  else if name == "signingid" then .SigningID
  else if name == "cdhash" then .CDHash
  else .Unknown

/-- getStateFromRuleName (santa.cpp); accepts both legacy and new words. -/
def getStateFromRuleName (name : String) : RuleState :=
  if name == "blacklist" || name == "block" then .Blacklist
  else if name == "whitelist" || name == "allow" then .Whitelist
  else .Unknown

/-- generatePrimaryKey(identifier, type) from santarulestable.cpp. -/
def generatePrimaryKeyOf (identifier : String) (type : RuleType) : String :=
  identifier ++ "_" ++ getRuleTypeName type

/-- generatePrimaryKey(rule) from santarulestable.cpp. -/
def generatePrimaryKey (rule : RuleEntry) : String :=
  generatePrimaryKeyOf rule.identifier rule.type

/-- std::unordered_map::insert: inserts only when the key is absent
(existing entries are never overwritten).  The map is modelled as an
association list in insertion order. -/
def mapInsert {α β : Type} [BEq α] (m : List (α × β)) (k : α) (v : β) :
    List (α × β) :=
  if m.any (fun p => p.1 == k) then m else m ++ [(k, v)]

/-- SantaRulesTablePlugin::PrivateData plus the process-lifetime rowID
generator (generateRowID's atomic counter).  `counter` is the unbounded
count of rowIDs generated so far; each generated rowID is the counter
value reduced modulo 2^32 (the counter is a uint32). -/
structure RulesState where
  counter : Nat
  rowid_to_pkey : List (Nat × String)
  rule_list : List (String × RuleEntry)
deriving DecidableEq, Repr

/-- One iteration of the loop body in SantaRulesTablePlugin::updateRules:
insert the rule into `rule_list` keyed by its primary key, then look the
primary key up in the previous generation `old` of rowid_to_pkey; if
found, reuse that rowID, else generate a fresh one. -/
def refreshStep (old : List (Nat × String)) (acc : RulesState)
    (r : RuleEntry) : RulesState :=
  let pk := generatePrimaryKey r
  let rl := mapInsert acc.rule_list pk r
  match old.find? (fun p => p.2 == pk) with
  | some q =>
      { acc with
        rule_list := rl
        rowid_to_pkey := mapInsert acc.rowid_to_pkey q.1 pk }
  | none =>
      { counter := acc.counter + 1
        rule_list := rl
        rowid_to_pkey := mapInsert acc.rowid_to_pkey (acc.counter % 2 ^ 32) pk }

/-- The loop over new_rule_list in updateRules. -/
def refreshLoop (old : List (Nat × String)) :
    List RuleEntry → RulesState → RulesState
  | [], acc => acc
  | r :: rest, acc => refreshLoop old rest (refreshStep old acc r)

/-- SantaRulesTablePlugin::updateRules.  `collected` is the outcome of
collectSantaRules: `none` models a failed collection (updateRules returns
a failure status and leaves the maps untouched); `some rules` models a
successful collection, after which both maps are rebuilt from scratch
against the previous rowid_to_pkey generation.  The Bool is status.ok(). -/
def updateRules (st : RulesState) (collected : Option (List RuleEntry)) :
    RulesState × Bool :=
  match collected with
  | none => (st, false)
  | some rules =>
      (refreshLoop st.rowid_to_pkey rules
        { counter := st.counter, rowid_to_pkey := [], rule_list := [] }, true)

/-! ### String helpers mirroring std::string operations -/

/-- std::string::find(char, pos): index of the first occurrence of `c` at
or after `start`, `none` for npos. -/
def findFrom (cs : List Char) (c : Char) (start : Nat) : Option Nat :=
  ((cs.drop start).findIdx? (fun x => x == c)).map (fun i => i + start)

/-- std::string::find_first_not_of(set, pos). -/
def findFirstNotOfFrom (cs : List Char) (bad : List Char) (start : Nat) :
    Option Nat :=
  ((cs.drop start).findIdx? (fun x => !bad.contains x)).map (fun i => i + start)

/-- std::string::find(pattern): index of the first occurrence of `pat` as a
contiguous substring. -/
def findSubstr (cs pat : List Char) : Option Nat :=
  (List.range (cs.length + 1)).find? (fun i => pat.isPrefixOf (cs.drop i))

/-- value.find(pattern) == 0, i.e. `pre` is a prefix of `s`. -/
def strStartsWith (s pre : String) : Bool :=
  pre.data.isPrefixOf s.data

/-- Lookup in a std::map<std::string, std::string> with operator[]
semantics on the reading side: a missing key reads as the empty string. -/
def lookupD (m : List (String × String)) (k : String) : String :=
  match m.find? (fun p => p.1 == k) with
  | some p => p.2
  | none => ""

/-- std::map::emplace: inserts only when the key is absent. -/
def emplaceAbsent (m : List (String × String)) (k v : String) :
    List (String × String) :=
  if m.any (fun p => p.1 == k) then m else m ++ [(k, v)]

/-! ### LineFieldExtractor: extractValues (santa.cpp) -/

/-- kLogEntryPreface (santa.cpp). -/
def kLogEntryPreface : String := "santad: "

/-- The `while ((key_end = line.find('=', key_pos)) != npos)` loop of
extractValues.  `fuel` bounds the iteration count; each iteration strictly
advances `key_pos`, so `cs.length + 1` fuel is always enough. -/
def extractLoop (cs : List Char) : Nat → List (String × String) → Nat →
    List (String × String)
  | _, m, 0 => m
  | key_pos, m, fuel + 1 =>
    match findFrom cs '=' key_pos with
    | none => m
    | some key_end =>
      match findFirstNotOfFrom cs ['='] key_end with
      | none => m
      | some val_pos =>
        let key := String.mk ((cs.drop key_pos).take (key_end - key_pos))
        match findFrom cs '|' val_pos with
        | none =>
            -- val_end == npos: substr takes the rest of the line and the
            -- loop terminates (key_pos becomes npos).
            emplaceAbsent m key (String.mk (cs.drop val_pos))
        | some val_end =>
            let v := String.mk ((cs.drop val_pos).take (val_end - val_pos))
            extractLoop cs (val_end + 1) (emplaceAbsent m key v) fuel

/-- extractValues (santa.cpp): bracketed timestamp, then `key=value` pairs
separated by pipes after the "santad: " preface.  When both brackets are
found but the closing one comes first, the size_t count in the C++
`substr(start + 1, end - start - 1)` wraps around and the substring runs
to the end of the line; `cs.length` as the take-count reproduces that. -/
def extractValues (line : String) : List (String × String) :=
  let cs := line.data
  let m1 : List (String × String) :=
    match findFrom cs '[' 0, findFrom cs ']' 0 with
    | some ts, some te =>
        if ts ≠ te then
          let cnt := if ts + 1 ≤ te then te - ts - 1 else cs.length
          [("timestamp", String.mk ((cs.drop (ts + 1)).take cnt))]
        else []
    | _, _ => []
  match findSubstr cs kLogEntryPreface.data with
  | none => m1
  | some p =>
      extractLoop cs (p + kLogEntryPreface.data.length) m1 (cs.length + 1)

/-! ### DecisionFilter and the log scraping engine (santa.cpp) -/

/-- SantaDecisionType. -/
inductive SantaDecisionType
  | kAllowed
  | kDenied
deriving DecidableEq, Repr

/-- line.find(pattern) != npos: contiguous substring containment. -/
def strContains (s pat : String) : Bool :=
  (findSubstr s.data pat.data).isSome

/-- The substring filter applied to each line in scrapeStream. -/
def decisionMatches (decision : SantaDecisionType) (line : String) : Bool :=
  match decision with
  | .kAllowed => strContains line "decision=ALLOW"
  | .kDenied => strContains line "decision=DENY"

/-- The LogEntry built from one matching line in scrapeStream /
processArchivedLines. -/
def mkLogEntry (line : String) : LogEntry :=
  let v := extractValues line
  { timestamp := lookupD v "timestamp"
    application := lookupD v "path"
    reason := lookupD v "reason"
    sha256 := lookupD v "sha256" }

/-- scrapeStream (santa.cpp): the per-line loop.  Returns the events
appended to `response` and the lines appended to the process-wide
`archived_lines` (nonempty only when `save_to_archive` is set; note the
decision filter `continue`s before the archive push_back, so only lines
matching the requested class are saved). -/
def scrapeStream (save_to_archive : Bool) (decision : SantaDecisionType) :
    List String → List LogEntry × List String
  | [] => ([], [])
  | line :: rest =>
      let r := scrapeStream save_to_archive decision rest
      if decisionMatches decision line then
        (mkLogEntry line :: r.1, (if save_to_archive then [line] else []) ++ r.2)
      else r

/-- The decompression outcome of one archive file `<log>.<i>.gz`:
`missing` — the file does not exist (ifstream and gzopen both fail);
`corrupt` — the file exists but gzread/gzerror reports a failure, so
scrapeCompressedSantaLog returns false without scraping anything;
`ok lines` — full decompression succeeds with the given text lines. -/
inductive ArchiveStatus
  | missing
  | corrupt
  | ok (lines : List String)
deriving DecidableEq, Repr

/-- The externally owned log files: the live log (`none` when it cannot be
opened) and the rotated archives, where index `i` beyond the list is a
missing file. -/
structure LogEnv where
  live : Option (List String)
  archives : List ArchiveStatus
deriving DecidableEq, Repr

/-- The archive file found at index `i`. -/
def archiveAt (env : LogEnv) (i : Nat) : ArchiveStatus :=
  env.archives.getD i .missing

/-- The process-wide mutable scraping state (globals in santa.cpp). -/
structure LogState where
  archived_lines : List String
  next_oldest_archive : Nat
deriving DecidableEq, Repr

/-- scrapeCurrentLog: the live log is re-read fresh on every request and
never archived; an unopenable live log yields no events. -/
def scrapeCurrentLog (env : LogEnv) (decision : SantaDecisionType) :
    List LogEntry :=
  match env.live with
  | none => []
  | some lines => (scrapeStream false decision lines).1

/-- scrapeCompressedSantaLog: `none` when gzopen fails or decompression
errors (the function returns false); otherwise the scraped events and the
lines pushed into archived_lines. -/
def scrapeCompressedSantaLog (st : ArchiveStatus)
    (decision : SantaDecisionType) : Option (List LogEntry × List String) :=
  match st with
  | .ok lines => some (scrapeStream true decision lines)
  | _ => none

/-- newArchiveFileExists: opens `<log>.<next_oldest_archive>.gz` with a
plain ifstream, so any existing file (even one that later fails to
decompress) counts. -/
def newArchiveFileExists (env : LogEnv) (noa : Nat) : Bool :=
  match archiveAt env noa with
  | .missing => false
  | _ => true

/-- processArchivedLines: replays every cached line as an event with no
decision filtering. -/
def processArchivedLines : List String → List LogEntry
  | [] => []
  | line :: rest => mkLogEntry line :: processArchivedLines rest

/-- The `for (unsigned int i = 0;; ++i)` rescan loop of scrapeSantaLog:
sets next_oldest_archive to `i`, attempts archive `i`, and stops at the
first failure.  Returns the accumulated events, the accumulated
archived_lines and the final next_oldest_archive.  `fuel` bounds the loop;
`env.archives.length + 1` is always enough because every index past the
end of the list is missing. -/
def scrapeArchivesLoop (env : LogEnv) (decision : SantaDecisionType) :
    Nat → Nat → List LogEntry × List String × Nat
  | 0, i => ([], [], i)
  | fuel + 1, i =>
    match scrapeCompressedSantaLog (archiveAt env i) decision with
    | none => ([], [], i)
    | some scraped =>
        let r := scrapeArchivesLoop env decision fuel (i + 1)
        (scraped.1 ++ r.1, scraped.2 ++ r.2.1, r.2.2)

/-- scrapeSantaLog (santa.cpp).  Scrapes the live log, then either replays
the cached archived_lines (no new archive at the rotation frontier) or
clears the cache and rescans every archive from index 0.  The Bool is the
return value (no exceptions occur in the model, so it is always true). -/
def scrapeSantaLog (st : LogState) (env : LogEnv)
    (decision : SantaDecisionType) : LogState × List LogEntry × Bool :=
  let live := scrapeCurrentLog env decision
  if newArchiveFileExists env st.next_oldest_archive then
    let r := scrapeArchivesLoop env decision (env.archives.length + 1) 0
    ({ archived_lines := r.2.1, next_oldest_archive := r.2.2 },
     live ++ r.1, true)
  else
    (st, live ++ processArchivedLines st.archived_lines, true)

/-- The archives that a full rescan starting at index 0 successfully
decodes: the longest prefix of decodable archives. -/
def okPrefix : List ArchiveStatus → List (List String)
  | .ok ls :: rest => ls :: okPrefix rest
  | _ => []

/-! ### RuleSnapshotCollector: rulesCallback and collectSantaRules -/

/-- The character set of isspace in the C locale. -/
def isCSpace (c : Char) : Bool :=
  c == ' ' || c == '\t' || c == '\n' || c == '\x0b' || c == '\x0c' || c == '\r'

/-- The numeric value of a maximal decimal digit run. -/
def digitsToNat (ds : List Char) : Nat :=
  ds.foldl (fun acc c => acc * 10 + (c.toNat - 48)) 0

/-- C atoi: skip C-locale whitespace, read an optional sign and a maximal
digit run (0 when there are no digits).  Overflow is undefined behaviour
in C and left unbounded here. -/
def atoiModel (s : String) : Int :=
  let rest := s.data.dropWhile isCSpace
  match rest with
  | '-' :: r => -(digitsToNat (r.takeWhile Char.isDigit) : Int)
  | '+' :: r => (digitsToNat (r.takeWhile Char.isDigit) : Int)
  | r => (digitsToNat (r.takeWhile Char.isDigit) : Int)

/-- The switch over the type integer in rulesCallback (santa.cpp):
1000 Binary, 2000 Certificate, 3000 SigningID, 4000 TeamID, 500 CDHash,
anything else Unknown. -/
def ruleTypeFromCode (v : Int) : RuleType :=
  if v = 1000 then .Binary
  else if v = 2000 then .Certificate
  else if v = 3000 then .SigningID
  else if v = 4000 then .TeamID
  else if v = 500 then .CDHash
  else .Unknown

/-- rulesCallback (santa.cpp) on one 4-column row, for the executions the
C++ defines: `identifier` and `state_text` are the non-null texts of the
first two columns (a null argv[0] or argv[1] is dereferenced undefined
behaviour in the source and excluded from the model); `type_text` and
`custommsg` are nullable exactly as in the source.  The state is decided
by the FIRST CHARACTER of the state column text (`argv[1][0] == '1'`);
the type is `atoi` of the type column. -/
def rulesCallback (identifier state_text : String)
    (type_text custommsg : Option String) : RuleEntry :=
  { identifier := identifier
    state :=
      match state_text.data with
      | c :: _ => if c == '1' then RuleState.Whitelist else RuleState.Blacklist
      | [] => RuleState.Blacklist
    type :=
      ruleTypeFromCode
        (match type_text with
         | some t => atoiModel t
         | none => 0)
    custom_message := custommsg.getD "" }

/-- One row handed to rulesCallback by the `SELECT identifier, state,
type, custommsg FROM rules` query (sqlite renders the integer columns as
text). -/
structure DbRow where
  identifier : String
  state_text : String
  type_text : Option String
  custommsg : Option String
deriving DecidableEq, Repr

/-- The outcomes of the external steps of collectSantaRules: opening the
source database file, creating the scratch copy, sqlite3_open on the
copy, the PRAGMA schema query and its column list, the rules query
(sqlite3_exec) with the rows it delivered to the callback before it
finished or errored, and sqlite3_close. -/
structure CollectEnv where
  src_open : Bool
  dst_open : Bool
  sqlite_open_ok : Bool
  schema_ok : Bool
  schema_columns : List String
  exec_ok : Bool
  exec_rows : List DbRow
  close_ok : Bool
deriving DecidableEq, Repr

/-- collectSantaRules (santa.cpp).  Returns the C++ return value and the
`response` list.  Note the final lines of the source:

    rc = sqlite3_exec(db, query, rulesCallback, &response, &err);
    if (rc != SQLITE_OK) { VLOG(1) << "Failed to query ..."; }
    ...
    rc = sqlite3_close(db);
    ...
    return (rc == SQLITE_OK);

The exec result is only logged: `rc` is overwritten by sqlite3_close, so
the returned Bool does not depend on `exec_ok`, and the rows delivered
before a query error stay in `response`. -/
def collectSantaRules (env : CollectEnv) : Bool × List RuleEntry :=
  if !env.src_open then (false, [])
  else if !env.dst_open then (false, [])
  else if !env.sqlite_open_ok then (false, [])
  else if !env.schema_ok then (false, [])
  else if env.schema_columns.contains "identifier"
       || env.schema_columns.contains "shasum" then
    (env.close_ok,
     env.exec_rows.map
       (fun r => rulesCallback r.identifier r.state_text r.type_text r.custommsg))
  else (false, [])

/-! ### MutationCoordinator: GetRowData, insert, delete_ -/

/-- find_first_not_of("0123456789abcdef") == npos for a single character:
membership in the lowercase-hex character set. -/
def isHexLower (c : Char) : Bool :=
  "0123456789abcdef".data.contains c

/-- The type-dependent identifier validation block of
SantaRulesTablePlugin::GetRowData; `none` means the identifier passed,
`some msg` is the osquery::Status error message. -/
def validateTypedIdentifier (ty id : String) : Option String :=
  if ty == "binary" then
    if id.length == 64 && id.data.all isHexLower then none
    else some "Invalid 'identifier' value for binary rule"
  else if ty == "cdhash" then
    if id.data.all isHexLower then none
    else some "Invalid 'identifier' value for cdhash rule"
  else if ty == "teamid" then
    if id.isEmpty then some "Invalid 'identifier' value for teamid rule"
    else none
  else if ty == "signingid" then
    if id.data.contains ':' then none
    else some "Invalid 'identifier' value for signingid rule, expected format: TeamID:BundleID"
  else if ty == "certificate" then
    if id.data.all isHexLower then none
    else some "Invalid 'identifier' value for certificate rule - must contain only hex characters"
  else
    some "Invalid 'type' value, must be one of: binary, certificate, teamid, signingid, cdhash"

/-- The osquery::Row assembled by GetRowData. -/
structure InsertRow where
  identifier : String
  state : String
  rule_type : String
  custom_message : String
deriving DecidableEq, Repr

/-- The state strings accepted by GetRowData. -/
def isValidStateName (s : String) : Bool :=
  s == "whitelist" || s == "blacklist" || s == "allow" || s == "block"

/-- SantaRulesTablePlugin::GetRowData.  The parsed JSON payload is
modelled as `none` for a parse error or a non-array document, and
otherwise as the list of elements, each `none` (JSON null) or a string.
Field order of checks follows the source: arity, null checks, optional
custom_message, type-dependent identifier validation, then the state
check. -/
def GetRowData (doc : Option (List (Option String))) :
    Except String InsertRow :=
  match doc with
  | none => .error "Invalid json received by osquery"
  | some vals =>
    match vals with
    | [v0, v1, v2, v3] =>
      match v0 with
      | none => .error "Missing 'identifier' value"
      | some id =>
        match v1 with
        | none => .error "Missing 'state' value"
        | some state_val =>
          match v2 with
          | none => .error "Missing 'type' value"
          | some ty =>
            let custom_message := v3.getD ""
            match validateTypedIdentifier ty id with
            | some e => .error e
            | none =>
              if isValidStateName state_val then
                .ok { identifier := id, state := state_val,
                      rule_type := ty, custom_message := custom_message }
              else
                .error "Invalid 'state' value, must be one of: whitelist, blacklist, allow, block"
    | _ => .error "Wrong column count"

/-- The caller-visible outcome of an insert or delete: the table state
afterwards, the returned QueryData row, and whether ExecuteProcess was
reached (the external side effect). -/
structure MutationResult where
  state : RulesState
  payload : List (String × String)
  invoked : Bool
deriving DecidableEq, Repr

/-- The external world as seen by SantaRulesTablePlugin::insert: whether
santactl exists at its fixed path, the outcome of ExecuteProcess (`none`
when it returns false), and the collectSantaRules outcome used by the
updateRules call that follows a successful command. -/
structure InsertEnv where
  santactl_exists : Bool
  exec_result : Option ProcessOutput
  collected : Option (List RuleEntry)
deriving DecidableEq, Repr

/-- SantaRulesTablePlugin::insert. -/
def insert (st : RulesState) (doc : Option (List (Option String)))
    (env : InsertEnv) : MutationResult :=
  match GetRowData doc with
  | .error _ => ⟨st, [("status", "failure")], false⟩
  | .ok row =>
    if !env.santactl_exists then
      ⟨st, [("status", "failure"), ("message", "santactl not found")], false⟩
    else
      match env.exec_result with
      | none =>
          ⟨st, [("status", "failure"),
                ("message", "Failed to execute santactl process")], true⟩
      | some out =>
        if out.exit_code ≠ 0 then
          ⟨st, [("status", "failure"),
                ("message", "santactl command failed: " ++ out.std_output)],
           true⟩
        else
          match updateRules st env.collected with
          | (st1, false) =>
              ⟨st1, [("status", "failure"),
                     ("message", "Failed to update rules: Failed to enumerate the Santa rules")],
               true⟩
          | (st1, true) =>
            let enum_type := getTypeFromRuleName row.rule_type
            let primary_key := generatePrimaryKeyOf row.identifier enum_type
            let found := st1.rowid_to_pkey.find? (fun p =>
              p.2 == primary_key &&
              (match st1.rule_list.find? (fun q => q.1 == primary_key) with
               | some q =>
                   q.2.type == enum_type &&
                   q.2.state == getStateFromRuleName row.state
               | none => false))
            match found with
            | some p =>
                ⟨st1, [("id", toString p.1), ("status", "success")], true⟩
            | none =>
                -- Synthetic entry: the rule is not yet visible in the
                -- snapshot, so a fresh rowID and a local entry are made.
                let row_id := st1.counter % 2 ^ 32
                let new_rule : RuleEntry :=
                  { identifier := row.identifier
                    type := enum_type
                    state := getStateFromRuleName row.state
                    custom_message := row.custom_message }
                let synthetic_key := generatePrimaryKey new_rule
                ⟨{ counter := st1.counter + 1
                   rule_list := mapInsert st1.rule_list synthetic_key new_rule
                   rowid_to_pkey :=
                     mapInsert st1.rowid_to_pkey row_id synthetic_key },
                 [("id", toString row_id), ("status", "success")], true⟩

/-- kMandatoryRuleDeletionError (santarulestable.cpp). -/
def kMandatoryRuleDeletionError : String :=
  "Failed to modify rules: A required rule was requested to be deleted"

/-- strtoull(id, &end, 10): skip C whitespace, read an optional sign and a
maximal digit run.  Returns the converted unsigned long long value and the
index `end` points at; with no digits nothing is consumed and `end` is the
start of the string, so the subsequent `*end != 0` check accepts exactly
the inputs whose returned index equals the string length (including the
empty string, which parses as 0).  Out-of-range values saturate to
ULLONG_MAX; a minus sign negates modulo 2^64. -/
def strtoullModel (s : String) : Nat × Nat :=
  let cs := s.data
  let ws := cs.takeWhile isCSpace
  let rest := cs.dropWhile isCSpace
  let sgn : Bool × Nat × List Char :=
    match rest with
    | c :: t =>
        if c == '-' then (true, 1, t)
        else if c == '+' then (false, 1, t)
        else (false, 0, rest)
    | [] => (false, 0, rest)
  let ds := sgn.2.2.takeWhile Char.isDigit
  if ds.isEmpty then (0, 0)
  else
    let n := digitsToNat ds
    let v :=
      if 2 ^ 64 ≤ n then 2 ^ 64 - 1
      else if sgn.1 then (2 ^ 64 - n) % 2 ^ 64
      else n
    (v, ws.length + sgn.2.1 + ds.length)

/-- The rowID parsing block of SantaRulesTablePlugin::delete_: strtoull
followed by the `*null_term_ptr != 0` rejection and the truncating cast
to uint32. -/
def parseRowID (s : String) : Option Nat :=
  let r := strtoullModel s
  if r.2 == s.data.length then some (r.1 % 2 ^ 32) else none

/-- Which of the two VLOG branches runs when the external removal command
fails in delete_. -/
inductive DeleteLogMsg
  | mandatoryRule
  | genericFailure
deriving DecidableEq, Repr

/-- The caller-visible outcome of delete_ plus the failure log branch
taken (the only place the mandatory-rule prefix detection is visible). -/
structure DeleteResult where
  state : RulesState
  payload : List (String × String)
  invoked : Bool
  log : Option DeleteLogMsg
deriving DecidableEq, Repr

/-- The external world as seen by delete_: the ExecuteProcess outcome and
the collectSantaRules outcome for the final updateRules. -/
structure DeleteEnv where
  exec_result : Option ProcessOutput
  collected : Option (List RuleEntry)
deriving DecidableEq, Repr

/-- SantaRulesTablePlugin::delete_ (santarulestable.cpp).  Parses the id,
resolves rowID to primary key to rule, rejects rules of Unknown type
before any external call, invokes santactl, distinguishes the
mandatory-rule refusal from a generic failure only in the log, and on
success refreshes the maps. -/
def delete_ (st : RulesState) (id : String) (env : DeleteEnv) : DeleteResult :=
  match parseRowID id with
  | none => ⟨st, [("status", "failure")], false, none⟩
  | some rowid =>
    match st.rowid_to_pkey.find? (fun p => p.1 == rowid) with
    | none => ⟨st, [("status", "failure")], false, none⟩
    | some p =>
      match st.rule_list.find? (fun q => q.1 == p.2) with
      | none => ⟨st, [("status", "failure")], false, none⟩
      | some q =>
        match q.2.type with
        | .Unknown => ⟨st, [("status", "failure")], false, none⟩
        | _ =>
          match env.exec_result with
          | none =>
              -- ExecuteProcess returned false; santactl_output.std_output
              -- is the untouched empty string, whose prefix check fails.
              ⟨st, [("status", "failure")], true, some .genericFailure⟩
          | some out =>
            if out.exit_code ≠ 0 then
              ⟨st, [("status", "failure")], true,
               some (if strStartsWith out.std_output kMandatoryRuleDeletionError
                     then .mandatoryRule else .genericFailure)⟩
            else
              match updateRules st env.collected with
              | (st1, false) => ⟨st1, [("status", "failure")], true, none⟩
              | (st1, true) => ⟨st1, [("status", "success")], true, none⟩

/-- The rowID assignment updateRules produces for the collected rules, in
collection order: a rule whose primary key exists in the previous
generation keeps that rowID, otherwise it gets the next counter value. -/
def ridSpec (old : List (Nat × String)) :
    List RuleEntry → Nat → List (Nat × String)
  | [], _ => []
  | r :: rest, c =>
    match old.find? (fun p => p.2 == generatePrimaryKey r) with
    | some q => (q.1, generatePrimaryKey r) :: ridSpec old rest c
    | none => (c % 2 ^ 32, generatePrimaryKey r) :: ridSpec old rest (c + 1)

/-- How many of the collected rules have a primary key absent from the
previous generation (each consumes one fresh rowID). -/
def freshCount (old : List (Nat × String)) : List RuleEntry → Nat
  | [] => 0
  | r :: rest =>
    match old.find? (fun p => p.2 == generatePrimaryKey r) with
    | some _ => freshCount old rest
    | none => freshCount old rest + 1

/-- Modelled from the claim's words: "a valid unsigned integer with no
trailing characters" — a non-empty string of decimal digits. -/
def claimValidUnsignedInt (s : String) : Bool :=
  !s.data.isEmpty && s.data.all Char.isDigit

/-! ### Helper lemmas -/

theorem mapInsert_append {α β : Type} [BEq α] (m : List (α × β)) (k : α)
    (v : β) (h : m.any (fun p => p.1 == k) = false) :
    mapInsert m k v = m ++ [(k, v)] := by
  simp [mapInsert, h]

theorem mem_mapInsert_of_mem {α β : Type} [BEq α] {m : List (α × β)}
    {p : α × β} (k : α) (v : β) (h : p ∈ m) : p ∈ mapInsert m k v := by
  unfold mapInsert
  split
  · exact h
  · exact List.mem_append_left _ h

theorem keys_nodup_eq {old : List (Nat × String)}
    (hK : (old.map Prod.fst).Nodup) {p q : Nat × String}
    (hp : p ∈ old) (hq : q ∈ old) (h : p.1 = q.1) : p = q := by
  induction old with
  | nil => cases hp
  | cons a t ih =>
    simp only [List.map_cons, List.nodup_cons] at hK
    rcases List.mem_cons.mp hp with rfl | hp2
    · rcases List.mem_cons.mp hq with rfl | hq2
      · rfl
      · exact absurd (h ▸ List.mem_map_of_mem Prod.fst hq2) hK.1
    · rcases List.mem_cons.mp hq with rfl | hq2
      · exact absurd (h ▸ List.mem_map_of_mem Prod.fst hp2) hK.1
      · exact ih hK.2 hp2 hq2

theorem scrapeStream_fst (save : Bool) (dec : SantaDecisionType) :
    ∀ l : List String,
      (scrapeStream save dec l).1 =
        (l.filter (decisionMatches dec)).map mkLogEntry := by
  intro l
  induction l with
  | nil => rfl
  | cons x xs ih =>
    simp only [scrapeStream, List.filter_cons]
    by_cases h : decisionMatches dec x
    · simp [h, ih]
    · simp [h, ih]

theorem scrapeStream_snd_true (dec : SantaDecisionType) :
    ∀ l : List String,
      (scrapeStream true dec l).2 = l.filter (decisionMatches dec) := by
  intro l
  induction l with
  | nil => rfl
  | cons x xs ih =>
    simp only [scrapeStream, List.filter_cons]
    by_cases h : decisionMatches dec x
    · simp [h, ih]
    · simp [h, ih]

theorem scrapeStream_snd_false (dec : SantaDecisionType) :
    ∀ l : List String, (scrapeStream false dec l).2 = [] := by
  intro l
  induction l with
  | nil => rfl
  | cons x xs ih =>
    simp only [scrapeStream]
    by_cases h : decisionMatches dec x
    · simp [h, ih]
    · simp [h, ih]

theorem processArchivedLines_eq_map :
    ∀ cache : List String,
      processArchivedLines cache = cache.map mkLogEntry := by
  intro cache
  induction cache with
  | nil => rfl
  | cons x xs ih => simp [processArchivedLines, ih]

/-! ### Characterization of the updateRules rowID assignment -/

theorem freshCount_le_length (old : List (Nat × String)) :
    ∀ l : List RuleEntry, freshCount old l ≤ l.length := by
  intro l
  induction l with
  | nil => simp [freshCount]
  | cons r rest ih =>
    simp only [freshCount, List.length_cons]
    cases old.find? (fun p => p.2 == generatePrimaryKey r) with
    | some q => exact Nat.le_succ_of_le ih
    | none => exact Nat.succ_le_succ ih

theorem refreshLoop_characterization
    (old : List (Nat × String)) (c0 : Nat)
    (hK : (old.map Prod.fst).Nodup)
    (hLt : ∀ p ∈ old, p.1 < c0) :
    ∀ (l : List RuleEntry) (acc : RulesState),
      (l.map generatePrimaryKey).Nodup →
      (∀ p ∈ acc.rowid_to_pkey, p.2 ∉ l.map generatePrimaryKey) →
      c0 ≤ acc.counter →
      (∀ p ∈ acc.rowid_to_pkey,
        (p ∈ old ∧ p.1 < c0) ∨ (c0 ≤ p.1 ∧ p.1 < acc.counter)) →
      acc.counter + l.length ≤ 2 ^ 32 →
      (refreshLoop old l acc).rowid_to_pkey =
          acc.rowid_to_pkey ++ ridSpec old l acc.counter
        ∧ (refreshLoop old l acc).counter = acc.counter + freshCount old l := by
  intro l
  induction l with
  | nil =>
    intro acc _ _ _ _ _
    simp [refreshLoop, ridSpec, freshCount]
  | cons r rest ih =>
    intro acc hNodup hDisj hc0 hInv hWrap
    have hcLt : acc.counter < 2 ^ 32 := by
      have := hWrap
      simp only [List.length_cons] at this
      omega
    simp only [List.map_cons, List.nodup_cons] at hNodup
    cases hfind : old.find? (fun p => p.2 == generatePrimaryKey r) with
    | some q =>
      have hqmem : q ∈ old := List.mem_of_find?_eq_some hfind
      have hqpk : q.2 = generatePrimaryKey r := by
        have := List.find?_some hfind
        exact eq_of_beq this
      -- q.1 is not yet a key of the accumulator
      have hnotkey :
          acc.rowid_to_pkey.any (fun p => p.1 == q.1) = false := by
        rw [List.any_eq_false]
        intro p hp
        simp only [beq_iff_eq]
        intro hpq
        rcases hInv p hp with ⟨hpo, _⟩ | ⟨hge, _⟩
        · have := keys_nodup_eq hK hpo hqmem hpq
          subst this
          exact hDisj p hp (by
            rw [hqpk]
            exact List.mem_cons_self _ _)
        · have := hLt q hqmem
          omega
      simp only [refreshLoop, refreshStep, hfind, mapInsert_append _ _ _ hnotkey]
      have hrec := ih
        { acc with
          rule_list := mapInsert acc.rule_list (generatePrimaryKey r) r
          rowid_to_pkey :=
            acc.rowid_to_pkey ++ [(q.1, generatePrimaryKey r)] }
        hNodup.2
        (by
          intro p hp
          rcases List.mem_append.mp hp with hp1 | hp2
          · intro hmem
            exact hDisj p hp1 (List.mem_cons_of_mem _ hmem)
          · simp only [List.mem_singleton] at hp2
            subst hp2
            exact hNodup.1)
        hc0
        (by
          intro p hp
          rcases List.mem_append.mp hp with hp1 | hp2
          · exact hInv p hp1
          · simp only [List.mem_singleton] at hp2
            subst hp2
            left
            constructor
            · have : (q.1, generatePrimaryKey r) = q := by
                rw [← hqpk]
              rw [this]
              exact hqmem
            · exact hLt q hqmem)
        (by
          simp only [List.length_cons] at hWrap
          show acc.counter + rest.length ≤ 2 ^ 32
          omega)
      refine ⟨?_, ?_⟩
      · rw [hrec.1]
        simp [ridSpec, hfind, List.append_assoc]
      · rw [hrec.2]
        simp [freshCount, hfind]
    | none =>
      have hmod : acc.counter % 2 ^ 32 = acc.counter := Nat.mod_eq_of_lt hcLt
      have hnotkey :
          acc.rowid_to_pkey.any (fun p => p.1 == acc.counter % 2 ^ 32) = false := by
        rw [List.any_eq_false]
        intro p hp
        simp only [beq_iff_eq, hmod]
        intro hpq
        rcases hInv p hp with ⟨_, hlt⟩ | ⟨_, hlt⟩ <;> omega
      simp only [refreshLoop, refreshStep, hfind, mapInsert_append _ _ _ hnotkey]
      have hrec := ih
        { counter := acc.counter + 1
          rule_list := mapInsert acc.rule_list (generatePrimaryKey r) r
          rowid_to_pkey :=
            acc.rowid_to_pkey ++ [(acc.counter % 2 ^ 32, generatePrimaryKey r)] }
        hNodup.2
        (by
          intro p hp
          rcases List.mem_append.mp hp with hp1 | hp2
          · intro hmem
            exact hDisj p hp1 (List.mem_cons_of_mem _ hmem)
          · simp only [List.mem_singleton] at hp2
            subst hp2
            exact hNodup.1)
        (Nat.le_succ_of_le hc0)
        (by
          intro p hp
          rcases List.mem_append.mp hp with hp1 | hp2
          · rcases hInv p hp1 with ⟨hpo, hlt⟩ | ⟨hge, hlt⟩
            · exact Or.inl ⟨hpo, hlt⟩
            · exact Or.inr ⟨hge, Nat.lt_succ_of_lt hlt⟩
          · simp only [List.mem_singleton] at hp2
            subst hp2
            right
            show c0 ≤ acc.counter % 2 ^ 32 ∧ acc.counter % 2 ^ 32 < acc.counter + 1
            rw [hmod]
            omega)
        (by
          simp only [List.length_cons] at hWrap
          show acc.counter + 1 + rest.length ≤ 2 ^ 32
          omega)
      refine ⟨?_, ?_⟩
      · rw [hrec.1]
        simp [ridSpec, hfind, List.append_assoc]
      · rw [hrec.2]
        simp [freshCount, hfind]
        omega

theorem ridSpec_sndMap (old : List (Nat × String)) :
    ∀ (l : List RuleEntry) (c : Nat),
      (ridSpec old l c).map Prod.snd = l.map generatePrimaryKey := by
  intro l
  induction l with
  | nil => intro c; rfl
  | cons r rest ih =>
    intro c
    simp only [ridSpec]
    cases hfind : old.find? (fun p => p.2 == generatePrimaryKey r) with
    | some q => simp [ih]
    | none => simp [ih]

theorem mem_map_gpk_rest {r : RuleEntry} {rest : List RuleEntry}
    {pk : String} (hmem : pk ∈ (r :: rest).map generatePrimaryKey)
    (hpk : generatePrimaryKey r ≠ pk) :
    pk ∈ rest.map generatePrimaryKey := by
  rcases List.mem_map.mp hmem with ⟨x, hx, hxe⟩
  rcases List.mem_cons.mp hx with rfl | hx2
  · exact absurd hxe hpk
  · exact hxe ▸ List.mem_map_of_mem generatePrimaryKey hx2

theorem ridSpec_kept_mem (old : List (Nat × String))
    (hInj : ∀ p ∈ old, ∀ q ∈ old, p.2 = q.2 → p.1 = q.1) :
    ∀ (l : List RuleEntry) (c : Nat) (rid : Nat) (pk : String),
      (rid, pk) ∈ old → pk ∈ l.map generatePrimaryKey →
      (rid, pk) ∈ ridSpec old l c := by
  intro l
  induction l with
  | nil => intro c rid pk _ h; cases h
  | cons r rest ih =>
    intro c rid pk hold hmem
    by_cases hpk : generatePrimaryKey r = pk
    · cases hfind : old.find? (fun p => p.2 == generatePrimaryKey r) with
      | some q =>
        have hqmem : q ∈ old := List.mem_of_find?_eq_some hfind
        have hqpk : q.2 = generatePrimaryKey r := by
          have h2 := List.find?_some hfind
          simp only [beq_iff_eq] at h2
          exact h2
        have hq1 : q.1 = rid := hInj q hqmem (rid, pk) hold (by rw [hqpk, hpk])
        simp only [ridSpec, hfind]
        rw [hq1, hpk]
        exact List.mem_cons_self _ _
      | none =>
        exfalso
        have := List.find?_eq_none.mp hfind (rid, pk) hold
        simp [hpk] at this
    · have hrest := mem_map_gpk_rest hmem hpk
      cases hfind : old.find? (fun p => p.2 == generatePrimaryKey r) with
      | some q =>
        simp only [ridSpec, hfind]
        exact List.mem_cons_of_mem _ (ih c rid pk hold hrest)
      | none =>
        simp only [ridSpec, hfind]
        exact List.mem_cons_of_mem _ (ih (c + 1) rid pk hold hrest)

theorem ridSpec_kept_unique (old : List (Nat × String))
    (hInj : ∀ p ∈ old, ∀ q ∈ old, p.2 = q.2 → p.1 = q.1) :
    ∀ (l : List RuleEntry) (c : Nat) (rid : Nat) (pk : String)
      (p : Nat × String),
      (rid, pk) ∈ old → p ∈ ridSpec old l c → p.2 = pk → p.1 = rid := by
  intro l
  induction l with
  | nil => intro c rid pk p _ h; cases h
  | cons r rest ih =>
    intro c rid pk p hold hp hsnd
    cases hfind : old.find? (fun p => p.2 == generatePrimaryKey r) with
    | some q =>
      simp only [ridSpec, hfind] at hp
      have hqmem : q ∈ old := List.mem_of_find?_eq_some hfind
      have hqpk : q.2 = generatePrimaryKey r := by
        have h2 := List.find?_some hfind
        simp only [beq_iff_eq] at h2
        exact h2
      rcases List.mem_cons.mp hp with rfl | hp2
      · simp only at hsnd
        exact hInj q hqmem (rid, pk) hold (by rw [hqpk, hsnd])
      · exact ih c rid pk p hold hp2 hsnd
    | none =>
      simp only [ridSpec, hfind] at hp
      rcases List.mem_cons.mp hp with rfl | hp2
      · exfalso
        simp only at hsnd
        have := List.find?_eq_none.mp hfind (rid, pk) hold
        simp [hsnd] at this
      · exact ih (c + 1) rid pk p hold hp2 hsnd

theorem ridSpec_fresh (old : List (Nat × String)) :
    ∀ (l : List RuleEntry) (c : Nat) (pk : String),
      pk ∈ l.map generatePrimaryKey → (∀ q ∈ old, q.2 ≠ pk) →
      c + l.length ≤ 2 ^ 32 →
      ∃ rid, (rid, pk) ∈ ridSpec old l c ∧ c ≤ rid ∧
        rid < c + freshCount old l := by
  intro l
  induction l with
  | nil => intro c pk h; cases h
  | cons r rest ih =>
    intro c pk hmem hold hWrap
    have hlen : (r :: rest).length = rest.length + 1 := rfl
    have hcLt : c < 2 ^ 32 := by omega
    by_cases hpk : generatePrimaryKey r = pk
    · have hfind : old.find? (fun p => p.2 == generatePrimaryKey r) = none := by
        rw [List.find?_eq_none]
        intro q hq
        simp only [beq_iff_eq, hpk]
        exact hold q hq
      refine ⟨c % 2 ^ 32, ?_, ?_, ?_⟩
      · simp only [ridSpec, hfind]
        rw [hpk]
        exact List.mem_cons_self _ _
      · rw [Nat.mod_eq_of_lt hcLt]
      · simp only [freshCount, hfind]
        rw [Nat.mod_eq_of_lt hcLt]
        omega
    · have hrest := mem_map_gpk_rest hmem hpk
      cases hfind : old.find? (fun p => p.2 == generatePrimaryKey r) with
      | some q =>
        rcases ih c pk hrest hold (by omega) with ⟨rid, h1, h2, h3⟩
        refine ⟨rid, ?_, h2, ?_⟩
        · simp only [ridSpec, hfind]
          exact List.mem_cons_of_mem _ h1
        · simp only [freshCount, hfind]
          omega
      | none =>
        rcases ih (c + 1) pk hrest hold (by omega) with ⟨rid, h1, h2, h3⟩
        refine ⟨rid, ?_, by omega, ?_⟩
        · simp only [ridSpec, hfind]
          exact List.mem_cons_of_mem _ h1
        · simp only [freshCount, hfind]
          omega

theorem ridSpec_absent (old : List (Nat × String)) (l : List RuleEntry)
    (c : Nat) (pk : String) (h : pk ∉ l.map generatePrimaryKey) :
    ∀ rid, (rid, pk) ∉ ridSpec old l c := by
  intro rid hmem
  have := ridSpec_sndMap old l c
  have hpk : pk ∈ (ridSpec old l c).map Prod.snd :=
    List.mem_map_of_mem Prod.snd hmem
  rw [this] at hpk
  exact h hpk

theorem ridSpec_mem_cases (old : List (Nat × String)) :
    ∀ (l : List RuleEntry) (c : Nat) (p : Nat × String),
      c + l.length ≤ 2 ^ 32 → p ∈ ridSpec old l c →
      p ∈ old ∨ (c ≤ p.1 ∧ p.1 < c + l.length) := by
  intro l
  induction l with
  | nil => intro c p _ h; cases h
  | cons r rest ih =>
    intro c p hWrap hp
    have hlen : (r :: rest).length = rest.length + 1 := rfl
    have hcLt : c < 2 ^ 32 := by omega
    cases hfind : old.find? (fun p => p.2 == generatePrimaryKey r) with
    | some q =>
      simp only [ridSpec, hfind] at hp
      rcases List.mem_cons.mp hp with rfl | hp2
      · left
        have hqmem : q ∈ old := List.mem_of_find?_eq_some hfind
        have hqpk : q.2 = generatePrimaryKey r := by
          have h2 := List.find?_some hfind
          simp only [beq_iff_eq] at h2
          exact h2
        have : (q.1, generatePrimaryKey r) = q := by
          rw [← hqpk]
        rw [this]
        exact hqmem
      · rcases ih c p (by omega) hp2 with h | h
        · exact Or.inl h
        · exact Or.inr ⟨h.1, by omega⟩
    | none =>
      simp only [ridSpec, hfind] at hp
      rcases List.mem_cons.mp hp with rfl | hp2
      · right
        simp only [Nat.mod_eq_of_lt hcLt]
        omega
      · rcases ih (c + 1) p (by omega) hp2 with h | h
        · exact Or.inl h
        · exact Or.inr ⟨by omega, by omega⟩

theorem ridSpec_keys_nodup (old : List (Nat × String)) (c0 : Nat)
    (hK : (old.map Prod.fst).Nodup)
    (hLt : ∀ p ∈ old, p.1 < c0) :
    ∀ (l : List RuleEntry) (c : Nat),
      (l.map generatePrimaryKey).Nodup → c0 ≤ c →
      c + l.length ≤ 2 ^ 32 →
      ((ridSpec old l c).map Prod.fst).Nodup := by
  intro l
  induction l with
  | nil => intro c _ _ _; simp [ridSpec]
  | cons r rest ih =>
    intro c hNodup hc0 hWrap
    have hlen : (r :: rest).length = rest.length + 1 := rfl
    have hcLt : c < 2 ^ 32 := by omega
    simp only [List.map_cons, List.nodup_cons] at hNodup
    cases hfind : old.find? (fun p => p.2 == generatePrimaryKey r) with
    | some q =>
      have hqmem : q ∈ old := List.mem_of_find?_eq_some hfind
      have hqpk : q.2 = generatePrimaryKey r := by
        have h2 := List.find?_some hfind
        simp only [beq_iff_eq] at h2
        exact h2
      simp only [ridSpec, hfind, List.map_cons, List.nodup_cons]
      refine ⟨?_, ih c hNodup.2 hc0 (by omega)⟩
      intro hcontra
      rcases List.mem_map.mp hcontra with ⟨p, hp, hp1⟩
      rcases ridSpec_mem_cases old rest c p (by omega) hp with hpo | ⟨hge, _⟩
      · -- two old entries with the same rowid are the same entry
        have := keys_nodup_eq hK hpo hqmem hp1
        subst this
        -- so p.2 = q.2 = gpk r, but p.2 is a pkey of rest
        have hsnd : p.2 ∈ (ridSpec old rest c).map Prod.snd :=
          List.mem_map_of_mem Prod.snd hp
        rw [ridSpec_sndMap] at hsnd
        rw [hqpk] at hsnd
        exact hNodup.1 hsnd
      · have := hLt q hqmem
        omega
    | none =>
      simp only [ridSpec, hfind, List.map_cons, List.nodup_cons]
      refine ⟨?_, ih (c + 1) hNodup.2 (by omega) (by omega)⟩
      intro hcontra
      rcases List.mem_map.mp hcontra with ⟨p, hp, hp1⟩
      rcases ridSpec_mem_cases old rest (c + 1) p (by omega) hp with hpo | ⟨hge, _⟩
      · have h1 := hLt p hpo
        rw [hp1] at h1
        rw [Nat.mod_eq_of_lt hcLt] at h1
        omega
      · rw [hp1] at hge
        rw [Nat.mod_eq_of_lt hcLt] at hge
        omega

theorem ridSpec_cons_ne (old : List (Nat × String)) (e : Nat × String) :
    ∀ (l : List RuleEntry) (c : Nat),
      (∀ r ∈ l, generatePrimaryKey r ≠ e.2) →
      ridSpec (e :: old) l c = ridSpec old l c := by
  intro l
  induction l with
  | nil => intro c _; rfl
  | cons r rest ih =>
    intro c hne
    have hhead : (fun p => p.2 == generatePrimaryKey r) e = false := by
      simp only [beq_eq_false_iff_ne]
      intro h
      exact hne r (List.mem_cons_self _ _) h.symm
    have hfind : (e :: old).find? (fun p => p.2 == generatePrimaryKey r) =
        old.find? (fun p => p.2 == generatePrimaryKey r) := by
      rw [List.find?_cons_of_neg]
      simp only [hhead]
      exact Bool.false_ne_true
    have hrest : ∀ x ∈ rest, generatePrimaryKey x ≠ e.2 := by
      intro x hx
      exact hne x (List.mem_cons_of_mem _ hx)
    cases h2 : old.find? (fun p => p.2 == generatePrimaryKey r) with
    | some q =>
      simp only [ridSpec, hfind, h2, ih rest.length hrest]
      simp [ih c hrest]
    | none =>
      simp only [ridSpec, hfind, h2]
      simp [ih (c + 1) hrest]

theorem ridSpec_idem (old : List (Nat × String)) :
    ∀ (l : List RuleEntry) (c c2 : Nat),
      (l.map generatePrimaryKey).Nodup →
      ridSpec (ridSpec old l c) l c2 = ridSpec old l c := by
  intro l
  induction l with
  | nil => intro c c2 _; rfl
  | cons r rest ih =>
    intro c c2 hNodup
    simp only [List.map_cons, List.nodup_cons] at hNodup
    cases hfind : old.find? (fun p => p.2 == generatePrimaryKey r) with
    | some q =>
      -- inner list starts with (q.1, gpk r)
      simp only [ridSpec, hfind]
      have hhead : ((q.1, generatePrimaryKey r) ::
            ridSpec old rest c).find? (fun p => p.2 == generatePrimaryKey r) =
          some (q.1, generatePrimaryKey r) := by
        apply List.find?_cons_of_pos
        simp
      rw [hhead]
      have hne : ∀ x ∈ rest,
          generatePrimaryKey x ≠ (q.1, generatePrimaryKey r).2 := by
        intro x hx h
        simp only at h
        exact hNodup.1 (h ▸ List.mem_map_of_mem generatePrimaryKey hx)
      rw [ridSpec_cons_ne _ _ _ _ hne]
      rw [ih c c2 hNodup.2]
    | none =>
      simp only [ridSpec, hfind]
      have hhead : ((c % 2 ^ 32, generatePrimaryKey r) ::
            ridSpec old rest (c + 1)).find?
            (fun p => p.2 == generatePrimaryKey r) =
          some (c % 2 ^ 32, generatePrimaryKey r) := by
        apply List.find?_cons_of_pos
        simp
      rw [hhead]
      have hne : ∀ x ∈ rest,
          generatePrimaryKey x ≠ (c % 2 ^ 32, generatePrimaryKey r).2 := by
        intro x hx h
        simp only at h
        exact hNodup.1 (h ▸ List.mem_map_of_mem generatePrimaryKey hx)
      rw [ridSpec_cons_ne _ _ _ _ hne]
      rw [ih (c + 1) c2 hNodup.2]

theorem ridSpec_rid_lt (old : List (Nat × String)) (c0 : Nat)
    (hLt : ∀ p ∈ old, p.1 < c0) :
    ∀ (l : List RuleEntry) (c : Nat), c0 ≤ c → c + l.length ≤ 2 ^ 32 →
      ∀ p ∈ ridSpec old l c, p.1 < c + freshCount old l := by
  intro l
  induction l with
  | nil => intro c _ _ p h; cases h
  | cons r rest ih =>
    intro c hc0 hWrap p hp
    have hlen : (r :: rest).length = rest.length + 1 := rfl
    have hcLt : c < 2 ^ 32 := by omega
    cases hfind : old.find? (fun p => p.2 == generatePrimaryKey r) with
    | some q =>
      simp only [ridSpec, hfind] at hp
      simp only [freshCount, hfind]
      rcases List.mem_cons.mp hp with rfl | hp2
      · have hqmem : q ∈ old := List.mem_of_find?_eq_some hfind
        have := hLt q hqmem
        show q.1 < c + freshCount old rest
        omega
      · exact ih c hc0 (by omega) p hp2
    | none =>
      simp only [ridSpec, hfind] at hp
      simp only [freshCount, hfind]
      rcases List.mem_cons.mp hp with rfl | hp2
      · show c % 2 ^ 32 < c + (freshCount old rest + 1)
        rw [Nat.mod_eq_of_lt hcLt]
        omega
      · have := ih (c + 1) (by omega) (by omega) p hp2
        omega

theorem refreshLoop_rule_list_congr (old1 old2 : List (Nat × String)) :
    ∀ (l : List RuleEntry) (acc1 acc2 : RulesState),
      acc1.rule_list = acc2.rule_list →
      (refreshLoop old1 l acc1).rule_list =
        (refreshLoop old2 l acc2).rule_list := by
  intro l
  induction l with
  | nil => intro acc1 acc2 h; exact h
  | cons r rest ih =>
    intro acc1 acc2 h
    simp only [refreshLoop]
    apply ih
    simp only [refreshStep]
    cases old1.find? (fun p => p.2 == generatePrimaryKey r) with
    | some q =>
      cases old2.find? (fun p => p.2 == generatePrimaryKey r) with
      | some q2 => simp [h]
      | none => simp [h]
    | none =>
      cases old2.find? (fun p => p.2 == generatePrimaryKey r) with
      | some q2 => simp [h]
      | none => simp [h]

theorem archiveAt_of_lt (env : LogEnv) (i : Nat)
    (h : i < env.archives.length) : archiveAt env i = env.archives[i] :=
  List.getD_eq_getElem _ _ h

theorem archiveAt_of_ge (env : LogEnv) (i : Nat)
    (h : env.archives.length ≤ i) : archiveAt env i = .missing := by
  unfold archiveAt
  rw [List.getD_eq_getElem?_getD]
  rw [List.getElem?_eq_none h]
  rfl

theorem scrapeArchivesLoop_eq (env : LogEnv) (dec : SantaDecisionType) :
    ∀ (fuel i : Nat), env.archives.length < i + fuel →
      scrapeArchivesLoop env dec fuel i =
        (((okPrefix (env.archives.drop i)).map
            (fun ls => (scrapeStream true dec ls).1)).flatten,
         ((okPrefix (env.archives.drop i)).map
            (fun ls => (scrapeStream true dec ls).2)).flatten,
         i + (okPrefix (env.archives.drop i)).length) := by
  intro fuel
  induction fuel with
  | zero =>
    intro i h
    have hge : env.archives.length ≤ i := by omega
    rw [List.drop_eq_nil_of_le hge]
    simp [scrapeArchivesLoop, okPrefix]
  | succ fuel ih =>
    intro i h
    by_cases hlt : i < env.archives.length
    · have hdrop := List.drop_eq_getElem_cons hlt
      have harch : archiveAt env i = env.archives[i] := archiveAt_of_lt env i hlt
      cases hstat : env.archives[i] with
      | missing =>
        rw [hdrop, hstat]
        have hA := harch.trans hstat
        simp [scrapeArchivesLoop, scrapeCompressedSantaLog, hA, okPrefix]
      | corrupt =>
        rw [hdrop, hstat]
        have hA := harch.trans hstat
        simp [scrapeArchivesLoop, scrapeCompressedSantaLog, hA, okPrefix]
      | ok ls =>
        rw [hdrop, hstat]
        have hA := harch.trans hstat
        simp only [scrapeArchivesLoop, scrapeCompressedSantaLog, hA,
          okPrefix, List.map_cons, List.flatten_cons, List.length_cons]
        rw [ih (i + 1) (by omega)]
        simp only [Prod.mk.injEq]
        refine ⟨trivial, trivial, by omega⟩
    · have hge : env.archives.length ≤ i := by omega
      have harch := archiveAt_of_ge env i hge
      rw [List.drop_eq_nil_of_le hge]
      simp [scrapeArchivesLoop, scrapeCompressedSantaLog, harch, okPrefix]

/-! ### Claim C1 -/

/-- Claim C1: for every successful refresh (updateRules), a primary key
present in the previous rowid_to_pkey generation that appears among the
newly collected rules keeps exactly the rowID it had (it is mapped to
that rowID and to no other); a newly appearing primary key is assigned a
freshly generated rowID from the monotonically increasing process-lifetime
counter (at least the counter value before the refresh and below the
counter value after it); and a primary key absent from the new collection
has no entry in the new mapping.  The hypotheses state the operational
invariants of the previous generation: rowIDs are distinct, at most one
rowID per primary key, all rowIDs below the counter, the collected rules
have pairwise distinct primary keys, and the uint32 rowID counter does not
wrap during the refresh. -/
theorem updateRules_identity_map (st : RulesState) (rules : List RuleEntry)
    (hK : (st.rowid_to_pkey.map Prod.fst).Nodup)
    (hInj : ∀ p ∈ st.rowid_to_pkey, ∀ q ∈ st.rowid_to_pkey,
      p.2 = q.2 → p.1 = q.1)
    (hLt : ∀ p ∈ st.rowid_to_pkey, p.1 < st.counter)
    (hNodup : (rules.map generatePrimaryKey).Nodup)
    (hWrap : st.counter + rules.length ≤ 2 ^ 32) :
    (∀ rid pk, (rid, pk) ∈ st.rowid_to_pkey →
       pk ∈ rules.map generatePrimaryKey →
       ((rid, pk) ∈ (updateRules st (some rules)).1.rowid_to_pkey ∧
        ∀ rid2, (rid2, pk) ∈ (updateRules st (some rules)).1.rowid_to_pkey →
          rid2 = rid)) ∧
    (∀ pk, pk ∈ rules.map generatePrimaryKey →
       (∀ p ∈ st.rowid_to_pkey, p.2 ≠ pk) →
       ∃ rid, (rid, pk) ∈ (updateRules st (some rules)).1.rowid_to_pkey ∧
         st.counter ≤ rid ∧ rid < (updateRules st (some rules)).1.counter) ∧
    (∀ pk, pk ∉ rules.map generatePrimaryKey →
       ∀ rid, (rid, pk) ∉ (updateRules st (some rules)).1.rowid_to_pkey) := by
  have hchar := refreshLoop_characterization st.rowid_to_pkey st.counter hK hLt
    rules { counter := st.counter, rowid_to_pkey := [], rule_list := [] }
    hNodup
    (by intro p hp; cases hp)
    (le_refl _)
    (by intro p hp; cases hp)
    hWrap
  have hrow : (updateRules st (some rules)).1.rowid_to_pkey =
      ridSpec st.rowid_to_pkey rules st.counter := by
    show (refreshLoop st.rowid_to_pkey rules
      { counter := st.counter, rowid_to_pkey := [], rule_list := [] }).rowid_to_pkey =
      ridSpec st.rowid_to_pkey rules st.counter
    rw [hchar.1]
    rfl
  have hcnt : (updateRules st (some rules)).1.counter =
      st.counter + freshCount st.rowid_to_pkey rules := by
    show (refreshLoop st.rowid_to_pkey rules
      { counter := st.counter, rowid_to_pkey := [], rule_list := [] }).counter =
      st.counter + freshCount st.rowid_to_pkey rules
    rw [hchar.2]
  refine ⟨?_, ?_, ?_⟩
  · intro rid pk hold hmem
    rw [hrow]
    refine ⟨ridSpec_kept_mem _ hInj rules st.counter rid pk hold hmem, ?_⟩
    intro rid2 h2
    exact ridSpec_kept_unique _ hInj rules st.counter rid pk (rid2, pk)
      hold h2 rfl
  · intro pk hmem habs
    rw [hrow, hcnt]
    exact ridSpec_fresh _ rules st.counter pk hmem habs hWrap
  · intro pk hmem rid
    rw [hrow]
    exact ridSpec_absent _ rules st.counter pk hmem rid

/-- Witness for C1 at a concrete state and collection: the key
"a_binary" existed with rowID 0 and is kept, while "b_binary" is fresh. -/
theorem updateRules_identity_map_witness :
    (0, "a_binary") ∈ (updateRules
      { counter := 2,
        rowid_to_pkey := [(0, "a_binary"), (1, "c_binary")],
        rule_list := [] }
      (some [{ type := RuleType.Binary, state := RuleState.Whitelist,
               identifier := "a", custom_message := "" },
             { type := RuleType.Binary, state := RuleState.Whitelist,
               identifier := "b", custom_message := "" }])).1.rowid_to_pkey :=
  ((updateRules_identity_map _ _ (by decide) (by decide) (by decide)
      (by decide) (by decide)).1 0 "a_binary" (by decide) (by decide)).1

/-! ### Claim C3 -/

/-- Claim C3 counterexample: when the collected rule sequence contains two
rules with the same primary key (same identifier and type), the first
refresh from an empty state mints two rowIDs for that key, but the second
refresh maps it only once — the rowid_to_pkey maps after the first and the
second run differ, refuting the claim as stated for arbitrary collected
sequences. -/
theorem updateRules_twice_differs_on_duplicates :
    (updateRules
        (updateRules { counter := 0, rowid_to_pkey := [], rule_list := [] }
          (some [{ type := RuleType.Binary, state := RuleState.Whitelist,
                   identifier := "a", custom_message := "" },
                 { type := RuleType.Binary, state := RuleState.Whitelist,
                   identifier := "a", custom_message := "" }])).1
        (some [{ type := RuleType.Binary, state := RuleState.Whitelist,
                 identifier := "a", custom_message := "" },
               { type := RuleType.Binary, state := RuleState.Whitelist,
                 identifier := "a", custom_message := "" }])).1.rowid_to_pkey ≠
    (updateRules { counter := 0, rowid_to_pkey := [], rule_list := [] }
        (some [{ type := RuleType.Binary, state := RuleState.Whitelist,
                 identifier := "a", custom_message := "" },
               { type := RuleType.Binary, state := RuleState.Whitelist,
                 identifier := "a", custom_message := "" }])).1.rowid_to_pkey := by
  decide

/-- Claim C3 as amended: provided the collected rule sequence assigns
pairwise distinct primary keys (and the previous generation satisfies the
operational invariants), running updateRules twice in succession with the
same collected sequence leaves rowid_to_pkey and rule_list after the
second run identical to their values after the first run. -/
theorem updateRules_refresh_idempotent (st : RulesState)
    (rules : List RuleEntry)
    (hK : (st.rowid_to_pkey.map Prod.fst).Nodup)
    (hLt : ∀ p ∈ st.rowid_to_pkey, p.1 < st.counter)
    (hNodup : (rules.map generatePrimaryKey).Nodup)
    (hWrap : st.counter + rules.length + rules.length ≤ 2 ^ 32) :
    ((updateRules (updateRules st (some rules)).1 (some rules)).1.rowid_to_pkey
        = (updateRules st (some rules)).1.rowid_to_pkey) ∧
    ((updateRules (updateRules st (some rules)).1 (some rules)).1.rule_list
        = (updateRules st (some rules)).1.rule_list) := by
  have hWrap1 : st.counter + rules.length ≤ 2 ^ 32 := by omega
  have hchar := refreshLoop_characterization st.rowid_to_pkey st.counter hK hLt
    rules { counter := st.counter, rowid_to_pkey := [], rule_list := [] }
    hNodup
    (by intro p hp; cases hp)
    (le_refl _)
    (by intro p hp; cases hp)
    hWrap1
  have hrow : (updateRules st (some rules)).1.rowid_to_pkey =
      ridSpec st.rowid_to_pkey rules st.counter := by
    show (refreshLoop st.rowid_to_pkey rules
      { counter := st.counter, rowid_to_pkey := [], rule_list := [] }).rowid_to_pkey =
      ridSpec st.rowid_to_pkey rules st.counter
    rw [hchar.1]
    rfl
  have hcnt : (updateRules st (some rules)).1.counter =
      st.counter + freshCount st.rowid_to_pkey rules := by
    show (refreshLoop st.rowid_to_pkey rules
      { counter := st.counter, rowid_to_pkey := [], rule_list := [] }).counter =
      st.counter + freshCount st.rowid_to_pkey rules
    rw [hchar.2]
  -- invariants of the state after the first refresh
  have hfle := freshCount_le_length st.rowid_to_pkey rules
  have hK1 : ((updateRules st (some rules)).1.rowid_to_pkey.map Prod.fst).Nodup := by
    rw [hrow]
    exact ridSpec_keys_nodup st.rowid_to_pkey st.counter hK hLt rules st.counter
      hNodup (le_refl _) hWrap1
  have hLt1 : ∀ p ∈ (updateRules st (some rules)).1.rowid_to_pkey,
      p.1 < (updateRules st (some rules)).1.counter := by
    rw [hrow, hcnt]
    exact ridSpec_rid_lt st.rowid_to_pkey st.counter hLt rules st.counter
      (le_refl _) hWrap1
  have hWrap2 : (updateRules st (some rules)).1.counter + rules.length ≤ 2 ^ 32 := by
    rw [hcnt]
    omega
  have hchar2 := refreshLoop_characterization
    (updateRules st (some rules)).1.rowid_to_pkey
    (updateRules st (some rules)).1.counter hK1 hLt1
    rules { counter := (updateRules st (some rules)).1.counter,
            rowid_to_pkey := [], rule_list := [] }
    hNodup
    (by intro p hp; cases hp)
    (le_refl _)
    (by intro p hp; cases hp)
    hWrap2
  have hrow2 : (updateRules (updateRules st (some rules)).1 (some rules)).1.rowid_to_pkey =
      ridSpec (updateRules st (some rules)).1.rowid_to_pkey rules
        (updateRules st (some rules)).1.counter := by
    show (refreshLoop (updateRules st (some rules)).1.rowid_to_pkey rules
      { counter := (updateRules st (some rules)).1.counter,
        rowid_to_pkey := [], rule_list := [] }).rowid_to_pkey = _
    rw [hchar2.1]
    rfl
  constructor
  · rw [hrow2, hrow]
    exact ridSpec_idem st.rowid_to_pkey rules st.counter
      (updateRules st (some rules)).1.counter hNodup
  · show (refreshLoop (updateRules st (some rules)).1.rowid_to_pkey rules
      { counter := (updateRules st (some rules)).1.counter,
        rowid_to_pkey := [], rule_list := [] }).rule_list =
      (refreshLoop st.rowid_to_pkey rules
        { counter := st.counter, rowid_to_pkey := [], rule_list := [] }).rule_list
    exact refreshLoop_rule_list_congr _ _ rules _ _ rfl

/-- Witness for the amended C3 at a concrete duplicate-free collection. -/
theorem updateRules_refresh_idempotent_witness :
    ((updateRules (updateRules
        { counter := 0, rowid_to_pkey := [], rule_list := [] }
        (some [{ type := RuleType.Binary, state := RuleState.Whitelist,
                 identifier := "a", custom_message := "" },
               { type := RuleType.Certificate, state := RuleState.Blacklist,
                 identifier := "b", custom_message := "m" }])).1
      (some [{ type := RuleType.Binary, state := RuleState.Whitelist,
               identifier := "a", custom_message := "" },
             { type := RuleType.Certificate, state := RuleState.Blacklist,
               identifier := "b", custom_message := "m" }])).1.rowid_to_pkey
        = (updateRules { counter := 0, rowid_to_pkey := [], rule_list := [] }
            (some [{ type := RuleType.Binary, state := RuleState.Whitelist,
                     identifier := "a", custom_message := "" },
                   { type := RuleType.Certificate, state := RuleState.Blacklist,
                     identifier := "b", custom_message := "m" }])).1.rowid_to_pkey) :=
  (updateRules_refresh_idempotent _ _ (by decide) (by decide) (by decide)
    (by decide)).1

/-! ### Claim C4 -/

/-- Claim C4: when a readable archive file exists at index
next_oldest_archive, scrapeSantaLog discards the cached archived_lines and
rescans the archives at indices 0, 1, 2, ... in order, stopping at the
first index whose file fails to open or decompress (the decodable prefix
`okPrefix`); it returns the live-log events for the requested class
followed by the events of every successfully decoded archive, in encounter
order within each source, and next_oldest_archive becomes the first
failing index. -/
theorem scrapeSantaLog_rescan (st : LogState) (env : LogEnv)
    (dec : SantaDecisionType)
    (h : newArchiveFileExists env st.next_oldest_archive = true) :
    scrapeSantaLog st env dec =
      ({ archived_lines := ((okPrefix env.archives).map
            (fun ls => ls.filter (decisionMatches dec))).flatten,
         next_oldest_archive := (okPrefix env.archives).length },
       scrapeCurrentLog env dec ++
         ((okPrefix env.archives).map
            (fun ls => (ls.filter (decisionMatches dec)).map mkLogEntry)).flatten,
       true) := by
  unfold scrapeSantaLog
  rw [h]
  simp only [if_true]
  rw [scrapeArchivesLoop_eq env dec (env.archives.length + 1) 0 (by omega)]
  simp only [List.drop_zero, scrapeStream_fst, scrapeStream_snd_true,
    Nat.zero_add]

/-- Witness for C4: a concrete state whose rotation frontier sees archive
index 0, with a decodable archive, a corrupt archive stopping the scan,
and a further archive that is never reached. -/
theorem scrapeSantaLog_rescan_witness :
    scrapeSantaLog
      { archived_lines := ["stale"], next_oldest_archive := 0 }
      { live := some ["[t0] santad: decision=DENY|path=/l|reason=r|sha256=s"],
        archives :=
          [ArchiveStatus.ok
            ["[t1] santad: decision=ALLOW|path=/a|reason=x|sha256=h1",
             "[t2] santad: decision=DENY|path=/b|reason=y|sha256=h2"],
           ArchiveStatus.corrupt,
           ArchiveStatus.ok
            ["[t3] santad: decision=DENY|path=/c|reason=z|sha256=h3"]] }
      SantaDecisionType.kDenied =
      ({ archived_lines := ((okPrefix
            [ArchiveStatus.ok
              ["[t1] santad: decision=ALLOW|path=/a|reason=x|sha256=h1",
               "[t2] santad: decision=DENY|path=/b|reason=y|sha256=h2"],
             ArchiveStatus.corrupt,
             ArchiveStatus.ok
              ["[t3] santad: decision=DENY|path=/c|reason=z|sha256=h3"]]).map
            (fun ls => ls.filter (decisionMatches SantaDecisionType.kDenied))).flatten,
         next_oldest_archive := (okPrefix
            [ArchiveStatus.ok
              ["[t1] santad: decision=ALLOW|path=/a|reason=x|sha256=h1",
               "[t2] santad: decision=DENY|path=/b|reason=y|sha256=h2"],
             ArchiveStatus.corrupt,
             ArchiveStatus.ok
              ["[t3] santad: decision=DENY|path=/c|reason=z|sha256=h3"]]).length },
       scrapeCurrentLog
         { live := some ["[t0] santad: decision=DENY|path=/l|reason=r|sha256=s"],
           archives :=
            [ArchiveStatus.ok
              ["[t1] santad: decision=ALLOW|path=/a|reason=x|sha256=h1",
               "[t2] santad: decision=DENY|path=/b|reason=y|sha256=h2"],
             ArchiveStatus.corrupt,
             ArchiveStatus.ok
              ["[t3] santad: decision=DENY|path=/c|reason=z|sha256=h3"]] }
         SantaDecisionType.kDenied ++
         ((okPrefix
            [ArchiveStatus.ok
              ["[t1] santad: decision=ALLOW|path=/a|reason=x|sha256=h1",
               "[t2] santad: decision=DENY|path=/b|reason=y|sha256=h2"],
             ArchiveStatus.corrupt,
             ArchiveStatus.ok
              ["[t3] santad: decision=DENY|path=/c|reason=z|sha256=h3"]]).map
            (fun ls => (ls.filter
              (decisionMatches SantaDecisionType.kDenied)).map mkLogEntry)).flatten,
       true) :=
  scrapeSantaLog_rescan _ _ _ (by decide)

/-! ### Claim C2 -/

/-- Claim C2 counterexample: decompressing an archive containing one ALLOW
line and one DENY line during a kAllowed scrape stores only the ALLOW line
in archived_lines — the raw DENY line is dropped by the decision filter
before the archive push_back, refuting the claim that every raw archive
line is retained for later re-filtering. -/
theorem scrapeSantaLog_drops_nonmatching_archive_lines :
    "x decision=DENY y" ∈ ["x decision=ALLOW y", "x decision=DENY y"] ∧
    "x decision=DENY y" ∉ (scrapeSantaLog
      { archived_lines := [], next_oldest_archive := 0 }
      { live := some [],
        archives := [ArchiveStatus.ok
          ["x decision=ALLOW y", "x decision=DENY y"]] }
      SantaDecisionType.kAllowed).1.archived_lines := by
  decide

/-- Claim C2 as amended: when scrapeSantaLog decompresses archive files it
retains in archived_lines only the raw lines matching the decision class
of that scrape (save_to_archive stores nothing for the live log), and a
later read that finds no new archive replays every cached line as an
event with no re-filtering — so the archive-derived events of a cache
replay are the lines selected by the original scrape's class, not a
re-filtering of the full archives for the newly requested class. -/
theorem archiveCache_is_class_filtered :
    (∀ (dec : SantaDecisionType) (lines : List String),
      (scrapeStream true dec lines).2 = lines.filter (decisionMatches dec)) ∧
    (∀ (dec : SantaDecisionType) (lines : List String),
      (scrapeStream false dec lines).2 = []) ∧
    (∀ cache : List String,
      processArchivedLines cache = cache.map mkLogEntry) ∧
    (∀ (st : LogState) (env : LogEnv) (dec : SantaDecisionType),
      newArchiveFileExists env st.next_oldest_archive = false →
      (scrapeSantaLog st env dec).2.1 =
        scrapeCurrentLog env dec ++ st.archived_lines.map mkLogEntry) := by
  refine ⟨?_, ?_, ?_, ?_⟩
  · intro dec lines
    exact scrapeStream_snd_true dec lines
  · intro dec lines
    exact scrapeStream_snd_false dec lines
  · exact processArchivedLines_eq_map
  · intro st env dec h
    unfold scrapeSantaLog
    rw [h]
    simp [processArchivedLines_eq_map]

/-- Witness for the amended C2: a cache built from a kAllowed scrape is
replayed unfiltered by a later kDenied read. -/
theorem archiveCache_is_class_filtered_witness :
    (scrapeSantaLog
      { archived_lines := ["x decision=ALLOW y"], next_oldest_archive := 1 }
      { live := some [],
        archives := [ArchiveStatus.ok ["x decision=ALLOW y"]] }
      SantaDecisionType.kDenied).2.1 =
    scrapeCurrentLog
      { live := some [],
        archives := [ArchiveStatus.ok ["x decision=ALLOW y"]] }
      SantaDecisionType.kDenied ++
      (["x decision=ALLOW y"] : List String).map mkLogEntry :=
  archiveCache_is_class_filtered.2.2.2 _ _ _ (by decide)

/-! ### Claim C5 -/

/-- Claim C5 (evidence of the code bug): an execution in which the
snapshot copy, the database open and the schema query all succeed, the
rules query itself returns an error after delivering one row to the
callback, and sqlite3_close succeeds.  collectSantaRules returns true
with the partially collected rows: the `rc` holding the sqlite3_exec
error is overwritten by `rc = sqlite3_close(db)` before
`return (rc == SQLITE_OK)`, so the logged query failure never reaches the
caller and updateRules will replace the previous in-memory rule state. -/
theorem collectSantaRules_true_despite_query_error :
    collectSantaRules
      { src_open := true, dst_open := true, sqlite_open_ok := true,
        schema_ok := true,
        schema_columns := ["identifier", "state", "type", "custommsg"],
        exec_ok := false,
        exec_rows := [{ identifier := "aa", state_text := "1",
                        type_text := some "1000", custommsg := none }],
        close_ok := true } =
      (true, [{ type := RuleType.Binary, state := RuleState.Whitelist,
                identifier := "aa", custom_message := "" }]) := by
  decide

/-! ### Claim C7 -/

/-- Claim C7 counterexample: the state column is checked by its first
character (`argv[1][0] == '1'`), not by integer equality with 1.  The
sqlite text of the state integer 10 is "10", and the produced rule has
the allow (Whitelist) state although 10 is not 1, refuting "any other
state value yields the block state". -/
theorem rulesCallback_state_ten_is_allow :
    (rulesCallback "x" "10" (some "2000") none).state = RuleState.Whitelist ∧
    toString (10 : Int) = "10" ∧ (10 : Int) ≠ 1 := by
  decide

/-- Claim C7 as amended: the rules callback maps the type integer (atoi of
the type column text) 1000 to Binary, 2000 to Certificate, 3000 to
SigningID, 4000 to TeamID and 500 to CDHash, and any other value to
Unknown with the row still produced; the state is the allow (Whitelist)
state exactly when the first character of the state column text is the
digit 1 — for state integers rendered in decimal this means 1, 10..19,
100..199, ..., not only the integer 1 — and the block (Blacklist) state
otherwise. -/
theorem rulesCallback_mappings :
    (∀ (id st ty : String) (msg : Option String), atoiModel ty = 1000 →
      (rulesCallback id st (some ty) msg).type = RuleType.Binary) ∧
    (∀ (id st ty : String) (msg : Option String), atoiModel ty = 2000 →
      (rulesCallback id st (some ty) msg).type = RuleType.Certificate) ∧
    (∀ (id st ty : String) (msg : Option String), atoiModel ty = 3000 →
      (rulesCallback id st (some ty) msg).type = RuleType.SigningID) ∧
    (∀ (id st ty : String) (msg : Option String), atoiModel ty = 4000 →
      (rulesCallback id st (some ty) msg).type = RuleType.TeamID) ∧
    (∀ (id st ty : String) (msg : Option String), atoiModel ty = 500 →
      (rulesCallback id st (some ty) msg).type = RuleType.CDHash) ∧
    (∀ (id st ty : String) (msg : Option String),
      atoiModel ty ≠ 1000 → atoiModel ty ≠ 2000 → atoiModel ty ≠ 3000 →
      atoiModel ty ≠ 4000 → atoiModel ty ≠ 500 →
      (rulesCallback id st (some ty) msg).type = RuleType.Unknown) ∧
    (∀ (id st : String) (ty msg : Option String),
      ((rulesCallback id st ty msg).state = RuleState.Whitelist ↔
        st.data.head? = some '1')) := by
  refine ⟨?_, ?_, ?_, ?_, ?_, ?_, ?_⟩
  · intro id st ty msg h
    simp [rulesCallback, ruleTypeFromCode, h]
  · intro id st ty msg h
    simp [rulesCallback, ruleTypeFromCode, h]
  · intro id st ty msg h
    simp [rulesCallback, ruleTypeFromCode, h]
  · intro id st ty msg h
    simp [rulesCallback, ruleTypeFromCode, h]
  · intro id st ty msg h
    simp [rulesCallback, ruleTypeFromCode, h]
  · intro id st ty msg h1 h2 h3 h4 h5
    simp [rulesCallback, ruleTypeFromCode, h1, h2, h3, h4, h5]
  · intro id st ty msg
    cases hd : st.data with
    | nil => simp [rulesCallback, hd]
    | cons c cs =>
      by_cases hc : c = '1'
      · simp [rulesCallback, hd, hc]
      · simp [rulesCallback, hd, hc]

/-- Witness for the amended C7 at the concrete type text "1000" and state
text "1". -/
theorem rulesCallback_mappings_witness :
    (rulesCallback "idw" "1" (some "1000") none).type = RuleType.Binary :=
  rulesCallback_mappings.1 "idw" "1" "1000" none (by decide)

/-! ### Claim C6 -/

theorem validateTypedIdentifier_binary (id : String) :
    validateTypedIdentifier "binary" id =
      if id.length == 64 && id.data.all isHexLower then none
      else some "Invalid 'identifier' value for binary rule" := rfl

theorem validateTypedIdentifier_certificate (id : String) :
    validateTypedIdentifier "certificate" id =
      if id.data.all isHexLower then none
      else some "Invalid 'identifier' value for certificate rule - must contain only hex characters" := rfl

theorem validateTypedIdentifier_teamid (id : String) :
    validateTypedIdentifier "teamid" id =
      if id.isEmpty then some "Invalid 'identifier' value for teamid rule"
      else none := rfl

theorem validateTypedIdentifier_signingid (id : String) :
    validateTypedIdentifier "signingid" id =
      if id.data.contains ':' then none
      else some "Invalid 'identifier' value for signingid rule, expected format: TeamID:BundleID" := rfl

/-- Claim C6 counterexample: the payload with the 2-character certificate
identifier "ab" passes GetRowData and reaches the external command (the
insert run invokes ExecuteProcess), although "ab" is not a 64-character
digest — the certificate branch of GetRowData checks only that every
character is lowercase hex, never the length. -/
theorem getRowData_accepts_short_certificate :
    GetRowData (some [some "ab", some "allow", some "certificate", none]) =
      Except.ok { identifier := "ab", state := "allow",
                  rule_type := "certificate", custom_message := "" } ∧
    "ab".length ≠ 64 ∧
    (Santa.insert { counter := 0, rowid_to_pkey := [], rule_list := [] }
      (some [some "ab", some "allow", some "certificate", none])
      { santactl_exists := true,
        exec_result := some { std_output := "", std_error := "", exit_code := 0 },
        collected := some [] }).invoked = true :=
  ⟨rfl, by decide, rfl⟩

/-- Claim C6 as amended: identifier validation in GetRowData is
type-dependent — binary requires a 64-character string of lowercase-hex
characters; certificate requires only lowercase-hex characters (any
length, the 64-character requirement is not enforced); signingid requires
a colon (TeamID:BundleID form); teamid requires a non-empty identifier —
and every payload failing validation is rejected with a failure status
before the external command is invoked (ExecuteProcess is never
reached). -/
theorem getRowData_validation :
    (∀ (id st : String) (msg : Option String),
      (GetRowData (some [some id, some st, some "binary", msg])).isOk =
        ((id.length == 64 && id.data.all isHexLower) && isValidStateName st)) ∧
    (∀ (id st : String) (msg : Option String),
      (GetRowData (some [some id, some st, some "certificate", msg])).isOk =
        (id.data.all isHexLower && isValidStateName st)) ∧
    (∀ (id st : String) (msg : Option String),
      (GetRowData (some [some id, some st, some "signingid", msg])).isOk =
        (id.data.contains ':' && isValidStateName st)) ∧
    (∀ (id st : String) (msg : Option String),
      (GetRowData (some [some id, some st, some "teamid", msg])).isOk =
        (!id.isEmpty && isValidStateName st)) ∧
    (∀ (st : RulesState) (doc : Option (List (Option String)))
       (env : InsertEnv) (e : String),
      GetRowData doc = Except.error e →
      Santa.insert st doc env =
        { state := st, payload := [("status", "failure")], invoked := false }) := by
  refine ⟨?_, ?_, ?_, ?_, ?_⟩
  · intro id st msg
    simp only [GetRowData, validateTypedIdentifier_binary]
    by_cases h1 : (id.length == 64 && id.data.all isHexLower) = true
    · by_cases h2 : isValidStateName st = true
      · simp [h1, h2, Except.isOk, Except.toBool]
      · simp only [Bool.not_eq_true] at h2
        simp [h1, h2, Except.isOk, Except.toBool]
    · simp only [Bool.not_eq_true] at h1
      simp [h1, Except.isOk, Except.toBool]
  · intro id st msg
    simp only [GetRowData, validateTypedIdentifier_certificate]
    by_cases h1 : id.data.all isHexLower = true
    · by_cases h2 : isValidStateName st = true
      · simp [h1, h2, Except.isOk, Except.toBool]
      · simp only [Bool.not_eq_true] at h2
        simp [h1, h2, Except.isOk, Except.toBool]
    · simp only [Bool.not_eq_true] at h1
      simp [h1, Except.isOk, Except.toBool]
  · intro id st msg
    simp only [GetRowData, validateTypedIdentifier_signingid]
    by_cases h1 : ':' ∈ id.data
    · by_cases h2 : isValidStateName st = true
      · simp [h1, h2, Except.isOk, Except.toBool]
      · simp only [Bool.not_eq_true] at h2
        simp [h1, h2, Except.isOk, Except.toBool]
    · simp [h1, Except.isOk, Except.toBool]
  · intro id st msg
    simp only [GetRowData, validateTypedIdentifier_teamid]
    by_cases h1 : id.isEmpty = true
    · simp [h1, Except.isOk, Except.toBool]
    · simp only [Bool.not_eq_true] at h1
      by_cases h2 : isValidStateName st = true
      · simp [h1, h2, Except.isOk, Except.toBool]
      · simp only [Bool.not_eq_true] at h2
        simp [h1, h2, Except.isOk, Except.toBool]
  · intro st doc env e h
    simp only [Santa.insert, h]

/-- Witness for the amended C6: the uppercase binary identifier "ZZZZ" is
rejected before any external call. -/
theorem getRowData_validation_witness :
    Santa.insert { counter := 0, rowid_to_pkey := [], rule_list := [] }
      (some [some "ZZZZ", some "allow", some "binary", none])
      { santactl_exists := true,
        exec_result := some { std_output := "", std_error := "", exit_code := 0 },
        collected := some [] } =
      { state := { counter := 0, rowid_to_pkey := [], rule_list := [] },
        payload := [("status", "failure")], invoked := false } :=
  getRowData_validation.2.2.2.2 _ _ _
    "Invalid 'identifier' value for binary rule" rfl

/-! ### Claim C8 -/

theorem digit_not_cspace {c : Char} (h : c.isDigit = true) :
    isCSpace c = false := by
  cases h9 : isCSpace c
  · rfl
  · exfalso
    simp only [isCSpace, Bool.or_eq_true, beq_iff_eq] at h9
    rcases h9 with ((((h2 | h2) | h2) | h2) | h2) | h2 <;>
      (subst h2; exact absurd h (by decide))

theorem digit_not_minus {c : Char} (h : c.isDigit = true) :
    (c == '-') = false := by
  by_cases hc : c = '-'
  · subst hc
    exact absurd h (by decide)
  · exact beq_eq_false_iff_ne.mpr hc

theorem digit_not_plus {c : Char} (h : c.isDigit = true) :
    (c == '+') = false := by
  by_cases hc : c = '+'
  · subst hc
    exact absurd h (by decide)
  · exact beq_eq_false_iff_ne.mpr hc

theorem takeWhile_eq_self_of_all {α : Type} {p : α → Bool} :
    ∀ l : List α, l.all p = true → l.takeWhile p = l := by
  intro l
  induction l with
  | nil => intro _; rfl
  | cons a t ih =>
    intro h
    simp only [List.all_cons, Bool.and_eq_true] at h
    rw [List.takeWhile_cons_of_pos h.1, ih h.2]

theorem all_of_takeWhile_eq_self {α : Type} {p : α → Bool} :
    ∀ l : List α, l.takeWhile p = l → ∀ a ∈ l, p a = true := by
  intro l
  induction l with
  | nil => intro _ a ha; cases ha
  | cons b t ih =>
    intro h a ha
    by_cases hb : p b = true
    · rw [List.takeWhile_cons_of_pos hb] at h
      have h2 : List.takeWhile p t = t := by
        injection h
      rcases List.mem_cons.mp ha with rfl | ha2
      · exact hb
      · exact ih h2 a ha2
    · rw [List.takeWhile_cons_of_neg hb] at h
      cases h

theorem takeWhile_full {α : Type} {p : α → Bool} {l : List α}
    (h : (l.takeWhile p).length = l.length) : l.takeWhile p = l := by
  have hpre : l.takeWhile p <+: l := List.takeWhile_prefix p
  exact hpre.eq_of_length h

theorem parseRowID_all_digits (s : String)
    (hv : claimValidUnsignedInt s = true)
    (hlt : digitsToNat s.data < 2 ^ 64) :
    parseRowID s = some (digitsToNat s.data % 2 ^ 32) := by
  simp only [claimValidUnsignedInt, Bool.and_eq_true, Bool.not_eq_true'] at hv
  cases hcs : s.data with
  | nil =>
    rw [hcs] at hv
    simp at hv
  | cons c t =>
    rw [hcs] at hv
    have hall := hv.2
    have hc : c.isDigit = true := by
      simp only [List.all_cons, Bool.and_eq_true] at hall
      exact hall.1
    have hws : List.takeWhile isCSpace (c :: t) = [] :=
      List.takeWhile_cons_of_neg (by simp [digit_not_cspace hc])
    have hdw : List.dropWhile isCSpace (c :: t) = c :: t :=
      List.dropWhile_cons_of_neg (by simp [digit_not_cspace hc])
    have hds : List.takeWhile Char.isDigit (c :: t) = c :: t :=
      takeWhile_eq_self_of_all _ hall
    rw [hcs] at hlt
    simp only [parseRowID, strtoullModel, hcs, hws, hdw, digit_not_minus hc,
      digit_not_plus hc, hds]
    simp [hc, hds, show ¬(2 ^ 64 ≤ digitsToNat (c :: t)) from by omega]
    rw [if_neg (by omega)]

theorem last_digit_append (pre l : List Char) (hl : l ≠ [])
    (hfull : l.takeWhile Char.isDigit = l) :
    ∃ d, (pre ++ l).getLast? = some d ∧ d.isDigit = true := by
  have hall := all_of_takeWhile_eq_self l hfull
  refine ⟨l.getLast hl, ?_, hall _ (List.getLast_mem hl)⟩
  rw [List.getLast?_append, List.getLast?_eq_getLast l hl]
  rfl

theorem string_eq_empty_of_data_nil {s : String} (h : s.data = []) :
    s = "" :=
  congrArg String.mk h

theorem parseRowID_some_last_digit (s : String) (v : Nat)
    (h : parseRowID s = some v) :
    s = "" ∨ ∃ d, s.data.getLast? = some d ∧ d.isDigit = true := by
  have hsplit := List.takeWhile_append_dropWhile isCSpace s.data
  cases hrest : s.data.dropWhile isCSpace with
  | nil =>
    -- no characters after the whitespace: strtoull consumes nothing
    left
    have hend : (strtoullModel s).2 = 0 := by
      simp only [strtoullModel, hrest]
      simp
    simp only [parseRowID, hend] at h
    split at h
    · rename_i hcond
      simp only [beq_iff_eq] at hcond
      exact string_eq_empty_of_data_nil (List.length_eq_zero.mp hcond.symm)
    · cases h
  | cons c t =>
    rw [hrest] at hsplit
    by_cases hm : c = '-'
    · subst hm
      cases hde : (t.takeWhile Char.isDigit).isEmpty with
      | true =>
        -- sign but no digits: nothing consumed, yet the string is nonempty
        exfalso
        have hend : (strtoullModel s).2 = 0 := by
          simp only [strtoullModel, hrest]
          simp [hde]
        simp only [parseRowID, hend] at h
        split at h
        · rename_i hcond
          simp only [beq_iff_eq] at hcond
          have hdata : s.data = [] := List.length_eq_zero.mp hcond.symm
          rw [hdata] at hrest
          cases hrest
        · cases h
      | false =>
        right
        have hend : (strtoullModel s).2 =
            (s.data.takeWhile isCSpace).length + 1 +
              (t.takeWhile Char.isDigit).length := by
          simp only [strtoullModel, hrest]
          simp [hde]
        simp only [parseRowID, hend] at h
        split at h
        · rename_i hcond
          simp only [beq_iff_eq] at hcond
          have hlen : (t.takeWhile Char.isDigit).length = t.length := by
            have h2 := congrArg List.length hsplit
            simp only [List.length_append, List.length_cons] at h2
            omega
          have hfull := takeWhile_full hlen
          have htne : t ≠ [] := by
            intro hte
            rw [hte] at hde
            simp at hde
          rw [← hsplit, List.append_cons]
          exact last_digit_append _ t htne hfull
        · cases h
    · by_cases hp : c = '+'
      · subst hp
        cases hde : (t.takeWhile Char.isDigit).isEmpty with
        | true =>
          exfalso
          have hend : (strtoullModel s).2 = 0 := by
            simp only [strtoullModel, hrest]
            simp [hde]
          simp only [parseRowID, hend] at h
          split at h
          · rename_i hcond
            simp only [beq_iff_eq] at hcond
            have hdata : s.data = [] := List.length_eq_zero.mp hcond.symm
            rw [hdata] at hrest
            cases hrest
          · cases h
        | false =>
          right
          have hend : (strtoullModel s).2 =
              (s.data.takeWhile isCSpace).length + 1 +
                (t.takeWhile Char.isDigit).length := by
            simp only [strtoullModel, hrest]
            simp [hde]
          simp only [parseRowID, hend] at h
          split at h
          · rename_i hcond
            simp only [beq_iff_eq] at hcond
            have hlen : (t.takeWhile Char.isDigit).length = t.length := by
              have h2 := congrArg List.length hsplit
              simp only [List.length_append, List.length_cons] at h2
              omega
            have hfull := takeWhile_full hlen
            have htne : t ≠ [] := by
              intro hte
              rw [hte] at hde
              simp at hde
            rw [← hsplit, List.append_cons]
            exact last_digit_append _ t htne hfull
          · cases h
      · cases hde : ((c :: t).takeWhile Char.isDigit).isEmpty with
        | true =>
          exfalso
          have hend : (strtoullModel s).2 = 0 := by
            simp only [strtoullModel, hrest]
            simp [hde, beq_eq_false_iff_ne.mpr hm, beq_eq_false_iff_ne.mpr hp]
          simp only [parseRowID, hend] at h
          split at h
          · rename_i hcond
            simp only [beq_iff_eq] at hcond
            have hdata : s.data = [] := List.length_eq_zero.mp hcond.symm
            rw [hdata] at hrest
            cases hrest
          · cases h
        | false =>
          right
          have hend : (strtoullModel s).2 =
              (s.data.takeWhile isCSpace).length +
                ((c :: t).takeWhile Char.isDigit).length := by
            simp only [strtoullModel, hrest]
            simp [hde, beq_eq_false_iff_ne.mpr hm, beq_eq_false_iff_ne.mpr hp]
          simp only [parseRowID, hend] at h
          split at h
          · rename_i hcond
            simp only [beq_iff_eq] at hcond
            have hlen : ((c :: t).takeWhile Char.isDigit).length =
                (c :: t).length := by
              have h2 := congrArg List.length hsplit
              simp only [List.length_append, List.length_cons] at h2
              simp only [List.length_cons]
              omega
            have hfull := takeWhile_full hlen
            rw [← hsplit]
            exact last_digit_append _ (c :: t) (by simp) hfull
          · cases h

/-- Claim C8 counterexample: the empty id string is not a valid unsigned
integer, yet strtoull consumes nothing, leaves the end pointer on the
terminating NUL, and delete_ proceeds with rowID 0 — here rowID 0 resolves
to a binary rule and the external command is invoked. -/
theorem delete_invokes_external_on_empty_id :
    claimValidUnsignedInt "" = false ∧
    (delete_
      { counter := 1, rowid_to_pkey := [(0, "aa_binary")],
        rule_list := [("aa_binary",
          { type := RuleType.Binary, state := RuleState.Whitelist,
            identifier := "aa", custom_message := "" })] }
      ""
      { exec_result := some { std_output := "", std_error := "", exit_code := 0 },
        collected := some [{ type := RuleType.Binary,
                             state := RuleState.Whitelist,
                             identifier := "aa", custom_message := "" }] }).invoked
      = true := by
  decide

/-- Claim C8 as amended: every non-empty all-digit id string is accepted
and parses to its value truncated to 32 bits; but the acceptance set is
strtoull's, not exactly "valid unsigned integer with no trailing
characters": the empty string is also accepted (as rowID 0).  Any
accepted id is either empty or ends in a digit (so an id with trailing
non-digit characters is rejected), and every rejected id makes delete_
return a failure status without invoking the external command. -/
theorem parseRowID_strtoull_semantics :
    (∀ s : String, claimValidUnsignedInt s = true →
      digitsToNat s.data < 2 ^ 64 →
      parseRowID s = some (digitsToNat s.data % 2 ^ 32)) ∧
    (parseRowID "" = some 0) ∧
    (∀ (s : String) (v : Nat), parseRowID s = some v →
      s = "" ∨ ∃ d, s.data.getLast? = some d ∧ d.isDigit = true) ∧
    (∀ (st : RulesState) (s : String) (env : DeleteEnv),
      parseRowID s = none →
      delete_ st s env =
        { state := st, payload := [("status", "failure")],
          invoked := false, log := none }) := by
  refine ⟨parseRowID_all_digits, rfl, parseRowID_some_last_digit, ?_⟩
  intro st s env h
  simp only [delete_, h]

/-- Witness for the amended C8: "7" parses to rowID 7, and the id "7x"
is rejected without reaching the external command. -/
theorem parseRowID_strtoull_semantics_witness :
    parseRowID "7" = some (digitsToNat "7".data % 2 ^ 32) ∧
    delete_ { counter := 0, rowid_to_pkey := [], rule_list := [] } "7x"
      { exec_result := none, collected := none } =
      { state := { counter := 0, rowid_to_pkey := [], rule_list := [] },
        payload := [("status", "failure")], invoked := false, log := none } :=
  ⟨parseRowID_strtoull_semantics.1 "7" (by decide) (by decide),
   parseRowID_strtoull_semantics.2.2.2 _ "7x" _ (by decide)⟩

/-! ### Claim C9 -/

/-- Claim C9 counterexample: when the external removal command fails, the
run whose captured output begins with the mandatory-rule error prefix and
the run with an unrelated error produce the identical caller-visible
payload — the distinction exists only in the VLOG branch, so it is not
reported to the caller as a distinct failure reason. -/
theorem delete_mandatory_failure_payload_identical :
    (delete_
      { counter := 1, rowid_to_pkey := [(0, "aa_binary")],
        rule_list := [("aa_binary",
          { type := RuleType.Binary, state := RuleState.Whitelist,
            identifier := "aa", custom_message := "" })] }
      "0"
      { exec_result := some
          { std_output := kMandatoryRuleDeletionError ++ " (teamid)",
            std_error := "", exit_code := 1 },
        collected := none }).payload =
    (delete_
      { counter := 1, rowid_to_pkey := [(0, "aa_binary")],
        rule_list := [("aa_binary",
          { type := RuleType.Binary, state := RuleState.Whitelist,
            identifier := "aa", custom_message := "" })] }
      "0"
      { exec_result := some
          { std_output := "santactl: unexpected error", std_error := "",
            exit_code := 1 },
        collected := none }).payload ∧
    strStartsWith (kMandatoryRuleDeletionError ++ " (teamid)")
      kMandatoryRuleDeletionError = true ∧
    strStartsWith "santactl: unexpected error"
      kMandatoryRuleDeletionError = false := by
  decide

/-- Claim C9 as amended: when the external removal command fails, delete_
does detect whether the captured output begins with the known
mandatory-rule error-message prefix, but the distinction is made only in
the log branch it takes; the caller receives the same generic
{status: failure} payload in both cases. -/
theorem delete_mandatory_only_logged (st : RulesState) (id : String)
    (env : DeleteEnv) (rowid : Nat) (p : Nat × String)
    (q : String × RuleEntry) (out : ProcessOutput)
    (h1 : parseRowID id = some rowid)
    (h2 : st.rowid_to_pkey.find? (fun x => x.1 == rowid) = some p)
    (h3 : st.rule_list.find? (fun x => x.1 == p.2) = some q)
    (h4 : q.2.type ≠ RuleType.Unknown)
    (h5 : env.exec_result = some out)
    (h6 : out.exit_code ≠ 0) :
    (delete_ st id env).payload = [("status", "failure")] ∧
    (delete_ st id env).invoked = true ∧
    (delete_ st id env).log =
      some (if strStartsWith out.std_output kMandatoryRuleDeletionError
            then DeleteLogMsg.mandatoryRule
            else DeleteLogMsg.genericFailure) := by
  cases htype : q.2.type with
  | Unknown => exact absurd htype h4
  | Binary =>
    simp [delete_, h1, h2, h3, h5, htype, h6]
  | Certificate =>
    simp [delete_, h1, h2, h3, h5, htype, h6]
  | SigningID =>
    simp [delete_, h1, h2, h3, h5, htype, h6]
  | TeamID =>
    simp [delete_, h1, h2, h3, h5, htype, h6]
  | CDHash =>
    simp [delete_, h1, h2, h3, h5, htype, h6]

/-- Witness for the amended C9 at a concrete state, id and failing
command output. -/
theorem delete_mandatory_only_logged_witness :
    (delete_
      { counter := 1, rowid_to_pkey := [(0, "aa_binary")],
        rule_list := [("aa_binary",
          { type := RuleType.Binary, state := RuleState.Whitelist,
            identifier := "aa", custom_message := "" })] }
      "0"
      { exec_result := some
          { std_output := "x", std_error := "", exit_code := 1 },
        collected := none }).payload = [("status", "failure")] :=
  (delete_mandatory_only_logged _ _ _ 0 (0, "aa_binary")
    ("aa_binary",
      { type := RuleType.Binary, state := RuleState.Whitelist,
        identifier := "aa", custom_message := "" })
    { std_output := "x", std_error := "", exit_code := 1 }
    (by decide) (by decide) (by decide) (by decide) rfl (by decide)).1

/-! ### Claim C10 -/

/-- Claim C10: a delete request whose parsed rowID resolves through
rowid_to_pkey and rule_list to a rule record of Unknown type returns a
failure status before the external command is invoked (the switch default
returns with no ExecuteProcess call). -/
theorem delete_unknown_type_rejected (st : RulesState) (id : String)
    (env : DeleteEnv) (rowid : Nat) (p : Nat × String)
    (q : String × RuleEntry)
    (h1 : parseRowID id = some rowid)
    (h2 : st.rowid_to_pkey.find? (fun x => x.1 == rowid) = some p)
    (h3 : st.rule_list.find? (fun x => x.1 == p.2) = some q)
    (h4 : q.2.type = RuleType.Unknown) :
    delete_ st id env =
      { state := st, payload := [("status", "failure")],
        invoked := false, log := none } := by
  simp [delete_, h1, h2, h3, h4]

/-- Witness for C10: a concrete mapping whose rowID 0 resolves to an
Unknown-typed rule record. -/
theorem delete_unknown_type_rejected_witness :
    delete_
      { counter := 1, rowid_to_pkey := [(0, "aa_unknown")],
        rule_list := [("aa_unknown",
          { type := RuleType.Unknown, state := RuleState.Whitelist,
            identifier := "aa", custom_message := "" })] }
      "0"
      { exec_result := some { std_output := "", std_error := "", exit_code := 0 },
        collected := none } =
      { state :=
          { counter := 1,
            rowid_to_pkey := [(0, "aa_unknown")],
            rule_list := [("aa_unknown",
              { type := RuleType.Unknown, state := RuleState.Whitelist,
                identifier := "aa", custom_message := "" })] },
        payload := [("status", "failure")], invoked := false, log := none } :=
  delete_unknown_type_rejected _ _ _ 0 (0, "aa_unknown")
    ("aa_unknown",
      { type := RuleType.Unknown, state := RuleState.Whitelist,
        identifier := "aa", custom_message := "" })
    (by decide) (by decide) (by decide) (by decide)

end Santa
